import Mathlib

/-!
Verification of the sign-agent repository's specification against a shallow
embedding of its Rust sources.  Bytes are modelled as `Nat` (values < 256 where
it matters), byte strings as `List Nat`, and fallible Rust functions as
`Except`-valued Lean functions.  External crates (aes-gcm, argon2,
ed25519-dalek, serde_json, rusqlite, hidapi, solana-sdk) are modelled as
abstract parameters carrying exactly the contract the repository code relies
on; everything else is translated from the source files.
-/

namespace SignAgent

/-! ## §1 Crypto: src/crates/solana-keyring/src/crypto/aead.rs and error.rs -/

/-- Envelope from `aead.rs`: `struct EncryptedData { ciphertext, nonce, salt }`. -/
structure EncryptedData where
  ciphertext : List Nat
  nonce : List Nat
  salt : List Nat
deriving Repr, DecidableEq

/-- Error type from `src/crates/solana-keyring/src/error.rs` (the variants used
by the embedded fragments).  The `From<aes_gcm::Error>` impl at error.rs:80-84
maps an AEAD failure to `Error::Encryption(e.to_string())`; the crate's error
displays as `"aead::Error"`. -/
inductive Error where
  | Database (msg : String)
  | Encryption (msg : String)
  | KeyDerivation (msg : String)
  | InvalidPassphrase
  | NotInitialized
  | AlreadyExists (msg : String)
  | KeypairNotFound (msg : String)
  | InvalidKeypairFormat (msg : String)
  | Ledger (msg : String)
  | LedgerNotConnected
deriving Repr, DecidableEq

/-- The external AES-256-GCM cipher (crate `aes_gcm`), abstracted as an AEAD
scheme: encryption under key and nonce, decryption returning `none` on an
authentication-tag failure, and the crate's round-trip contract. -/
structure Aead where
  enc : List Nat → List Nat → List Nat → List Nat
  dec : List Nat → List Nat → List Nat → Option (List Nat)
  dec_enc : ∀ k n m, dec k n (enc k n m) = some m

/-- `encrypt_secret` from aead.rs:28-49.  The two RNG draws (`salt`, `nonce`)
are explicit inputs; `kdf` is the external Argon2id derivation
(`DerivedKey::derive`, kdf.rs:23-35; with the fixed valid parameters and a
32-byte salt the crate call does not fail). -/
def encrypt_secret (A : Aead) (kdf : List Nat → List Nat → List Nat)
    (salt nonce secret master_password : List Nat) : EncryptedData :=
  let derived_key := kdf master_password salt
  { ciphertext := A.enc derived_key nonce secret, nonce := nonce, salt := salt }

/-- `decrypt_secret` from aead.rs:52-66: rederive the key from the stored salt,
decrypt; a tag failure propagates through `From<aes_gcm::Error>` as
`Error::Encryption("aead::Error")`. -/
def decrypt_secret (A : Aead) (kdf : List Nat → List Nat → List Nat)
    (encrypted : EncryptedData) (master_password : List Nat) :
    Except Error (List Nat) :=
  let derived_key := kdf master_password encrypted.salt
  match A.dec derived_key encrypted.nonce encrypted.ciphertext with
  | some plaintext => .ok plaintext
  | none => .error (.Encryption "aead::Error")

/-- A concrete AEAD instance used to witness satisfiability of the abstract
scheme: the ciphertext is the plaintext with the key appended, and decryption
checks that the trailing bytes equal the key. -/
def toyAead : Aead where
  enc k _ m := m ++ k
  dec k _ c :=
    if k.length ≤ c.length ∧ c.drop (c.length - k.length) = k then
      some (c.take (c.length - k.length))
    else
      none
  dec_enc := by
    intro k n m
    show (if k.length ≤ (m ++ k).length
            ∧ (m ++ k).drop ((m ++ k).length - k.length) = k then
          some ((m ++ k).take ((m ++ k).length - k.length))
        else none) = some m
    have hlen : (m ++ k).length - k.length = m.length := by
      simp [List.length_append]
    rw [hlen, List.drop_left, List.take_left]
    simp [List.length_append, Nat.le_add_left]

/-- A concrete KDF instance: the derived key is the passphrase with a marker
byte, so distinct passphrases of equal length derive distinct equal-length
keys. -/
def toyKdf : List Nat → List Nat → List Nat :=
  fun master_password _ => 0 :: master_password

instance {ε α : Type} [DecidableEq ε] [DecidableEq α] :
    DecidableEq (Except ε α) := fun x y =>
  match x, y with
  | .ok a, .ok b =>
    if h : a = b then .isTrue (by rw [h]) else .isFalse (by simp [h])
  | .error a, .error b =>
    if h : a = b then .isTrue (by rw [h]) else .isFalse (by simp [h])
  | .ok _, .error _ => .isFalse (by simp)
  | .error _, .ok _ => .isFalse (by simp)

/-- The phrasing of claim C1, relative to an AEAD scheme and KDF: decrypting
an envelope under any passphrase different from the one it was encrypted with
fails with the `InvalidPassphrase` error kind. -/
def wrongPassphraseGivesInvalidPassphrase
    (A : Aead) (kdf : List Nat → List Nat → List Nat) : Prop :=
  ∀ salt nonce secret p p' : List Nat, p ≠ p' →
    decrypt_secret A kdf (encrypt_secret A kdf salt nonce secret p) p'
      = .error .InvalidPassphrase

/-- C1 counterexample: at a concrete instance and concrete inputs, decrypting
with the wrong passphrase fails, but with the `Encryption` kind, not
`InvalidPassphrase`; so no AEAD scheme and KDF satisfy the claim as stated. -/
theorem c1_decrypt_wrong_pass_error_kind_counterexample :
    decrypt_secret toyAead toyKdf
        (encrypt_secret toyAead toyKdf [3] [4] [7] [1]) [2]
      = .error (.Encryption "aead::Error")
    ∧ decrypt_secret toyAead toyKdf
        (encrypt_secret toyAead toyKdf [3] [4] [7] [1]) [2]
      ≠ .error .InvalidPassphrase
    ∧ ¬ wrongPassphraseGivesInvalidPassphrase toyAead toyKdf := by
  refine ⟨by decide, by decide, fun h => ?_⟩
  have := h [3] [4] [7] [1] [2] (by decide)
  revert this
  decide

/-- C1 amended: whenever the AEAD tag check rejects the ciphertext, the
repository's `decrypt_secret` fails with the `Encryption` error kind —
distinct from `InvalidPassphrase`, which only the passphrase-verification
path surfaces — so callers can distinguish the two failures by error kind. -/
theorem c1_decrypt_tag_failure_is_encryption_kind
    (A : Aead) (kdf : List Nat → List Nat → List Nat)
    (encrypted : EncryptedData) (master_password : List Nat)
    (htag : A.dec (kdf master_password encrypted.salt) encrypted.nonce
        encrypted.ciphertext = none) :
    decrypt_secret A kdf encrypted master_password
        = .error (.Encryption "aead::Error")
    ∧ decrypt_secret A kdf encrypted master_password
        ≠ .error .InvalidPassphrase := by
  constructor
  · simp [decrypt_secret, htag]
  · simp [decrypt_secret, htag]

/-- Witness for `c1_decrypt_tag_failure_is_encryption_kind` at a concrete
envelope whose tag check fails. -/
theorem c1_decrypt_tag_failure_witness :
    decrypt_secret toyAead toyKdf ⟨[9, 9], [4], [3]⟩ [2]
        = .error (.Encryption "aead::Error")
    ∧ decrypt_secret toyAead toyKdf ⟨[9, 9], [4], [3]⟩ [2]
        ≠ .error .InvalidPassphrase :=
  c1_decrypt_tag_failure_is_encryption_kind toyAead toyKdf ⟨[9, 9], [4], [3]⟩ [2]
    (by decide)

/-- C2: for every passphrase, secret, and RNG-drawn salt and nonce,
`decrypt_secret (encrypt_secret s p) p` succeeds and returns exactly `s`. -/
theorem c2_encrypt_decrypt_roundtrip
    (A : Aead) (kdf : List Nat → List Nat → List Nat)
    (salt nonce secret master_password : List Nat) :
    decrypt_secret A kdf (encrypt_secret A kdf salt nonce secret master_password)
        master_password = .ok secret := by
  simp [encrypt_secret, decrypt_secret, A.dec_enc]

/-! ## §2 Keypair import: src/crates/solana-keyring/src/keypair/import.rs -/

/-- `SecureKeypair` from keypair/mod.rs: the 32-byte Ed25519 seed together
with the public key the external `ed25519_dalek` crate derives from it; the
derivation (`SigningKey::verifying_key`) is kept abstract as `derivePub`. -/
structure SecureKeypair where
  secret : List Nat
  pubkey : List Nat
deriving Repr, DecidableEq

/-- `SecureKeypair::from_bytes` (keypair/mod.rs:26-30): infallible —
`SigningKey::from_bytes` accepts any 32-byte seed, and the public key is
derived from it.  `derivePub` stands for the external Ed25519 derivation. -/
def SecureKeypair.from_bytes (derivePub : List Nat → List Nat)
    (bytes : List Nat) : Except Error SecureKeypair :=
  .ok { secret := bytes, pubkey := derivePub bytes }

/-- `import_json_string` (import.rs:19-48) after the external `serde_json`
parse has produced the byte array: a 64-byte array yields a keypair from its
first 32 bytes (the rest is never examined), a 32-byte array is the seed
itself, anything else is `InvalidKeypairFormat`. -/
def import_json_string (derivePub : List Nat → List Nat)
    (bytes : List Nat) : Except Error SecureKeypair :=
  if bytes.length = 64 then
    SecureKeypair.from_bytes derivePub (bytes.take 32)
  else if bytes.length = 32 then
    SecureKeypair.from_bytes derivePub bytes
  else
    .error (.InvalidKeypairFormat
      ("Expected 32 or 64 bytes, got " ++ toString bytes.length))

/-- The phrasing of claim C7's failure half, relative to the Ed25519 public-key
derivation: every 64-byte array whose last 32 bytes differ from the public key
derived from its first 32 bytes is rejected with an invalid-format error. -/
def importRejectsMismatchedPubkeyHalf (derivePub : List Nat → List Nat) : Prop :=
  ∀ bytes : List Nat, bytes.length = 64 →
    bytes.drop 32 ≠ derivePub (bytes.take 32) →
    ∃ msg, import_json_string derivePub bytes = .error (.InvalidKeypairFormat msg)

/-- C7 counterexample: no public-key derivation makes the claim's failure half
true, because `import_json_string` never examines the last 32 bytes: of the two
concrete 64-byte arrays below (equal in their first 32 bytes, different in
their last 32), at least one has a mismatched trailing half, yet both import
successfully. -/
theorem c7_import_mismatch_rejection_counterexample :
    ¬ ∃ derivePub, importRejectsMismatchedPubkeyHalf derivePub := by
  rintro ⟨derivePub, h⟩
  by_cases hc : (1 :: List.replicate 31 0 : List Nat)
      = derivePub (List.replicate 32 0)
  · obtain ⟨msg, hmsg⟩ :=
      h (List.replicate 32 0 ++ (2 :: List.replicate 31 0)) (by decide)
        (by
          rw [List.drop_append_of_le_length (by decide),
            List.take_append_of_le_length (by decide)]
          rw [show List.replicate 32 (0 : Nat) = List.take 32 (List.replicate 32 0) from by decide] at hc
          simp only [List.drop_replicate] at *
          rw [← hc]
          decide)
    revert hmsg
    simp [import_json_string, SecureKeypair.from_bytes]
  · obtain ⟨msg, hmsg⟩ :=
      h (List.replicate 32 0 ++ (1 :: List.replicate 31 0)) (by decide)
        (by
          rw [List.drop_append_of_le_length (by decide),
            List.take_append_of_le_length (by decide)]
          simpa using hc)
    revert hmsg
    simp [import_json_string, SecureKeypair.from_bytes]

/-- C7 amended: `import_json_string` accepts every 64-byte array without
checking its last 32 bytes — the keypair is built from the first 32 bytes
alone, with the public key derived from them — and likewise accepts every
32-byte array; so the success half of the claim holds but mismatched 64-byte
arrays are not rejected. -/
theorem c7_import_ignores_pubkey_half (derivePub : List Nat → List Nat)
    (bytes : List Nat) (h64 : bytes.length = 64) :
    import_json_string derivePub bytes
      = .ok { secret := bytes.take 32, pubkey := derivePub (bytes.take 32) } := by
  simp [import_json_string, SecureKeypair.from_bytes, h64]

/-- Witness for `c7_import_ignores_pubkey_half` at a concrete 64-byte array
(whose trailing half is certainly not a valid derived key for any fixed
derivation mapping everything to zeros). -/
theorem c7_import_ignores_pubkey_half_witness :
    import_json_string (fun _ => List.replicate 32 0)
        (List.replicate 64 (5 : Nat))
      = .ok { secret := List.replicate 32 5,
              pubkey := List.replicate 32 0 } := by
  have := c7_import_ignores_pubkey_half (fun _ => List.replicate 32 0)
    (List.replicate 64 (5 : Nat)) (by decide)
  rw [this]
  decide

/-! ## §3 Derivation paths: src/crates/solana-actor-ledger/src/derivation.rs -/

/-- `LedgerError::InvalidPath` from solana-actor-ledger/src/error.rs. -/
inductive LedgerError where
  | InvalidPath (msg : String)
deriving Repr, DecidableEq

/-- Rust `str::split(sep)`: splitting an empty string yields one empty piece,
and every separator occurrence starts a new piece. -/
def rustSplit (sep : Char) : List Char → List (List Char)
  | [] => [[]]
  | c :: cs =>
    match rustSplit sep cs with
    | [] => [[]]
    | h :: t => if c = sep then [] :: h :: t else (c :: h) :: t

/-- Rust `str::trim_start_matches("m/")`: strip the leading `"m/"` marker
repeatedly. -/
def trimStartMatchesMSlash : List Char → List Char
  | c1 :: c2 :: rest =>
    if c1 = 'm' ∧ c2 = '/' then trimStartMatchesMSlash rest
    else c1 :: c2 :: rest
  | l => l

/-- Numeric value of a decimal digit string, most significant digit first. -/
def digitsToNat (s : List Char) : Nat :=
  s.foldl (fun acc c => acc * 10 + (c.toNat - 48)) 0

/-- Digit-string part of Rust `str::parse::<u32>`: at least one ASCII digit
and the value must fit in 32 bits. -/
def rustParseU32Digits (s : List Char) : Option Nat :=
  if s = [] then none
  else if s.all Char.isDigit then
    if digitsToNat s < 2 ^ 32 then some (digitsToNat s) else none
  else none

/-- Rust `str::parse::<u32>` (standard library, external): an optional leading
`'+'`, then at least one ASCII digit, and the value must fit in 32 bits. -/
def rustParseU32 (s : List Char) : Option Nat :=
  rustParseU32Digits (if s.head? = some '+' then s.tail else s)

/-- Rust `str::ends_with(c)` for a single character. -/
def endsWithChar (c : Char) (s : List Char) : Bool :=
  s.getLast? = some c

/-- Body of the `for part in …` loop of `parse_path` (derivation.rs:27-41):
strip a trailing `'` or `h` hardened marker, parse the decimal component,
then set bit 31 when hardened (`num |= 0x80000000`). -/
def parseComponent (part : List Char) : Except LedgerError Nat :=
  if endsWithChar '\'' part || endsWithChar 'h' part then
    match rustParseU32 part.dropLast with
    | none => .error (.InvalidPath ("Invalid component: " ++ String.mk part))
    | some num => .ok (num ||| 2 ^ 31)
  else
    match rustParseU32 part with
    | none => .error (.InvalidPath ("Invalid component: " ++ String.mk part))
    | some num => .ok num

/-- The component-collecting loop of `parse_path`: push each parsed value,
returning the first error. -/
def mapMExcept {α β ε : Type} (f : α → Except ε β) : List α → Except ε (List β)
  | [] => .ok []
  | x :: xs =>
    match f x with
    | .error e => .error e
    | .ok y =>
      match mapMExcept f xs with
      | .error e => .error e
      | .ok ys => .ok (y :: ys)

/-- `parse_path` (derivation.rs:23-48). -/
def parse_path (path : List Char) : Except LedgerError (List Nat) :=
  (mapMExcept parseComponent (rustSplit '/' (trimStartMatchesMSlash path))).bind
    fun components =>
      if components.isEmpty then .error (.InvalidPath "Empty derivation path")
      else .ok components

/-- Rust `format!("{}", n)` for an unsigned integer (standard library,
external): most significant digit first, no leading zeros; fuel recursion on
the value. -/
def decCharsAux : Nat → Nat → List Char
  | 0, _ => []
  | fuel + 1, n =>
    if n < 10 then [Char.ofNat (48 + n)]
    else decCharsAux fuel (n / 10) ++ [Char.ofNat (48 + n % 10)]

/-- Decimal rendering of `n`. -/
def toDecimal (n : Nat) : List Char :=
  decCharsAux (n + 1) n

/-- One component of `format_path` (derivation.rs:61-69): the value with the
hardened bit removed followed by `'` when bit 31 is set, plain decimal
otherwise. -/
def formatComponent (n : Nat) : List Char :=
  if 2 ^ 31 ≤ n then toDecimal (n - 2 ^ 31) ++ ['\'']
  else toDecimal n

/-- Rust `[String]::join("/")`. -/
def joinSlash : List (List Char) → List Char
  | [] => []
  | [p] => p
  | p :: q :: rest => p ++ '/' :: joinSlash (q :: rest)

/-- `format_path` (derivation.rs:59-72): `"m/"` followed by the slash-joined
components. -/
def format_path (path : List Nat) : List Char :=
  'm' :: '/' :: joinSlash (path.map formatComponent)

theorem getLast?_mem_of_eq_some {l : List Char} {a : Char}
    (h : l.getLast? = some a) : a ∈ l := by
  rw [List.getLast?_eq_some_iff] at h
  obtain ⟨ys, rfl⟩ := h
  simp

theorem charOfDigit_toNat {d : Nat} (hd : d < 10) :
    (Char.ofNat (48 + d)).toNat - 48 = d := by
  interval_cases d <;> decide

theorem charOfDigit_isDigit {d : Nat} (hd : d < 10) :
    (Char.ofNat (48 + d)).isDigit = true := by
  interval_cases d <;> decide

theorem decCharsAux_digits :
    ∀ fuel n c, c ∈ decCharsAux fuel n → c.isDigit = true := by
  intro fuel
  induction fuel with
  | zero => intro n c hc; simp [decCharsAux] at hc
  | succ fuel ih =>
    intro n c hc
    simp only [decCharsAux] at hc
    split at hc
    · simp only [List.mem_singleton] at hc
      subst hc
      exact charOfDigit_isDigit (by omega)
    · rcases List.mem_append.mp hc with h | h
      · exact ih _ _ h
      · simp only [List.mem_singleton] at h
        subst h
        exact charOfDigit_isDigit (Nat.mod_lt _ (by omega))

theorem toDecimal_digits {n : Nat} {c : Char} (hc : c ∈ toDecimal n) :
    c.isDigit = true :=
  decCharsAux_digits _ _ _ hc

theorem decCharsAux_ne_nil (fuel n : Nat) : decCharsAux (fuel + 1) n ≠ [] := by
  simp only [decCharsAux]
  split <;> simp

theorem toDecimal_ne_nil (n : Nat) : toDecimal n ≠ [] :=
  decCharsAux_ne_nil n n

theorem foldl_decCharsAux :
    ∀ fuel n acc, n < fuel →
      List.foldl (fun acc c => acc * 10 + (c.toNat - 48)) acc (decCharsAux fuel n)
        = acc * 10 ^ (decCharsAux fuel n).length + n := by
  intro fuel
  induction fuel with
  | zero => intro n acc h; omega
  | succ fuel ih =>
    intro n acc h
    simp only [decCharsAux]
    split
    · rename_i hlt
      simp only [List.foldl_cons, List.foldl_nil, List.length_singleton]
      rw [charOfDigit_toNat hlt]
      ring
    · rename_i hge
      push_neg at hge
      have hdiv : n / 10 < fuel :=
        lt_of_lt_of_le (Nat.div_lt_self (by omega) (by omega)) (by omega)
      rw [List.foldl_append]
      simp only [List.foldl_cons, List.foldl_nil]
      rw [ih (n / 10) acc hdiv, charOfDigit_toNat (Nat.mod_lt _ (by omega))]
      rw [List.length_append, List.length_singleton]
      calc (acc * 10 ^ (decCharsAux fuel (n / 10)).length + n / 10) * 10 + n % 10
          = acc * 10 ^ (decCharsAux fuel (n / 10)).length * 10
              + (10 * (n / 10) + n % 10) := by ring
        _ = acc * 10 ^ ((decCharsAux fuel (n / 10)).length + 1) + n := by
            rw [Nat.div_add_mod, pow_succ]
            ring

theorem digitsToNat_toDecimal (n : Nat) : digitsToNat (toDecimal n) = n := by
  unfold digitsToNat toDecimal
  rw [foldl_decCharsAux (n + 1) n 0 (Nat.lt_succ_self n)]
  simp

theorem toDecimal_head?_digit (n : Nat) :
    ∃ c, (toDecimal n).head? = some c ∧ c.isDigit = true := by
  cases hcl : toDecimal n with
  | nil => exact absurd hcl (toDecimal_ne_nil n)
  | cons c t =>
    exact ⟨c, rfl, toDecimal_digits (hcl ▸ List.mem_cons_self c t)⟩

theorem rustParseU32Digits_toDecimal {n : Nat} (h : n < 2 ^ 32) :
    rustParseU32Digits (toDecimal n) = some n := by
  unfold rustParseU32Digits
  have hall : (toDecimal n).all Char.isDigit = true := by
    rw [List.all_eq_true]
    intro c hc
    exact toDecimal_digits hc
  rw [if_neg (toDecimal_ne_nil n), hall, if_pos rfl, digitsToNat_toDecimal,
    if_pos h]

theorem rustParseU32_toDecimal {n : Nat} (h : n < 2 ^ 32) :
    rustParseU32 (toDecimal n) = some n := by
  unfold rustParseU32
  have hhead : ¬ (toDecimal n).head? = some '+' := by
    obtain ⟨c, hc, hcd⟩ := toDecimal_head?_digit n
    rw [hc]
    intro he
    rw [Option.some_inj] at he
    rw [he] at hcd
    exact absurd hcd (by decide)
  rw [if_neg hhead]
  exact rustParseU32Digits_toDecimal h

theorem lor_two_pow_31 {m : Nat} (h : m < 2 ^ 31) : m ||| 2 ^ 31 = m + 2 ^ 31 := by
  have := Nat.mul_add_lt_is_or h 1
  rw [Nat.mul_one] at this
  rw [Nat.or_comm, ← this, Nat.add_comm]

theorem parseComponent_formatComponent {n : Nat} (h : n < 2 ^ 32) :
    parseComponent (formatComponent n) = .ok n := by
  by_cases hn : 2 ^ 31 ≤ n
  · obtain ⟨m, rfl, hmlt⟩ : ∃ m, n = m + 2 ^ 31 ∧ m < 2 ^ 31 :=
      ⟨n - 2 ^ 31, by omega, by omega⟩
    have harg : m + 2 ^ 31 - 2 ^ 31 = m := by omega
    have hfmt : formatComponent (m + 2 ^ 31) = toDecimal m ++ ['\''] := by
      unfold formatComponent
      rw [if_pos (show 2 ^ 31 ≤ m + 2 ^ 31 by omega), harg]
    rw [hfmt]
    unfold parseComponent
    have hends : (endsWithChar '\'' (toDecimal m ++ ['\''])
        || endsWithChar 'h' (toDecimal m ++ ['\''])) = true := by
      unfold endsWithChar
      rw [List.getLast?_concat]
      simp
    rw [hends, if_pos rfl, List.dropLast_concat,
      rustParseU32_toDecimal (show m < 2 ^ 32 by omega)]
    show Except.ok (m ||| 2 ^ 31) = Except.ok (m + 2 ^ 31)
    rw [lor_two_pow_31 hmlt]
  · have hfmt : formatComponent n = toDecimal n := by
      unfold formatComponent
      rw [if_neg hn]
    rw [hfmt]
    unfold parseComponent
    have hmark : (endsWithChar '\'' (toDecimal n) || endsWithChar 'h' (toDecimal n))
        = false := by
      unfold endsWithChar
      cases hgl : (toDecimal n).getLast? with
      | none => simp
      | some c =>
        have hcd : c.isDigit = true :=
          toDecimal_digits (getLast?_mem_of_eq_some hgl)
        have h1 : c ≠ '\'' := by intro he; rw [he] at hcd; exact absurd hcd (by decide)
        have h2 : c ≠ 'h' := by intro he; rw [he] at hcd; exact absurd hcd (by decide)
        simp [h1, h2]
    rw [hmark, if_neg (show ¬ (false = true) by simp),
      rustParseU32_toDecimal h]

theorem rustSplit_ne_nil (sep : Char) (l : List Char) : rustSplit sep l ≠ [] := by
  cases l with
  | nil => simp [rustSplit]
  | cons c cs =>
    simp only [rustSplit]
    cases hr : rustSplit sep cs with
    | nil => simp
    | cons h t => by_cases hc : c = sep <;> simp [hc]

theorem rustSplit_no_sep {sep : Char} {p : List Char} (hp : sep ∉ p) :
    rustSplit sep p = [p] := by
  induction p with
  | nil => rfl
  | cons c cs ih =>
    have hc : c ≠ sep := fun he => hp (he ▸ List.mem_cons_self c cs)
    have hcs : sep ∉ cs := fun hm => hp (List.mem_cons_of_mem c hm)
    simp only [rustSplit, ih hcs]
    rw [if_neg hc]

theorem rustSplit_append {sep : Char} {p : List Char} (rest : List Char)
    (hp : sep ∉ p) :
    rustSplit sep (p ++ sep :: rest) = p :: rustSplit sep rest := by
  induction p with
  | nil =>
    simp only [List.nil_append, rustSplit]
    cases hr : rustSplit sep rest with
    | nil => exact absurd hr (rustSplit_ne_nil sep rest)
    | cons h t => simp
  | cons c cs ih =>
    have hc : c ≠ sep := fun he => hp (he ▸ List.mem_cons_self c cs)
    have hcs : sep ∉ cs := fun hm => hp (List.mem_cons_of_mem c hm)
    rw [List.cons_append]
    simp only [rustSplit]
    rw [ih hcs]
    simp [hc]

theorem rustSplit_joinSlash :
    ∀ parts : List (List Char), parts ≠ [] → (∀ p ∈ parts, '/' ∉ p) →
      rustSplit '/' (joinSlash parts) = parts := by
  intro parts
  induction parts with
  | nil => intro h; exact absurd rfl h
  | cons p rest ih =>
    intro _ hall
    cases rest with
    | nil =>
      simp only [joinSlash]
      exact rustSplit_no_sep (hall p (List.mem_cons_self p []))
    | cons q rest' =>
      simp only [joinSlash]
      rw [rustSplit_append _ (hall p (List.mem_cons_self p _))]
      rw [ih (by simp) (fun x hx => hall x (List.mem_cons_of_mem p hx))]

theorem trimStartMatchesMSlash_cons_m (rest : List Char) :
    trimStartMatchesMSlash ('m' :: '/' :: rest) = trimStartMatchesMSlash rest := by
  simp [trimStartMatchesMSlash]

theorem trimStartMatchesMSlash_of_head_ne (l : List Char)
    (h : l.head? ≠ some 'm') : trimStartMatchesMSlash l = l := by
  cases l with
  | nil => rfl
  | cons c1 t =>
    cases t with
    | nil => rfl
    | cons c2 rest =>
      have hc1 : c1 ≠ 'm' := by
        intro he
        exact h (by rw [he]; rfl)
      simp only [trimStartMatchesMSlash]
      rw [if_neg (fun hb => hc1 hb.1)]

theorem formatComponent_ne_nil (n : Nat) : formatComponent n ≠ [] := by
  unfold formatComponent
  split
  · simp
  · exact toDecimal_ne_nil n

theorem formatComponent_head?_digit (n : Nat) :
    ∃ c, (formatComponent n).head? = some c ∧ c.isDigit = true := by
  unfold formatComponent
  split
  · obtain ⟨c, hc, hcd⟩ := toDecimal_head?_digit (n - 2 ^ 31)
    refine ⟨c, ?_, hcd⟩
    rw [List.head?_append_of_ne_nil _ (toDecimal_ne_nil _)]
    exact hc
  · exact toDecimal_head?_digit n

theorem formatComponent_no_slash (n : Nat) : '/' ∉ formatComponent n := by
  unfold formatComponent
  intro hm
  split at hm
  · rcases List.mem_append.mp hm with h | h
    · exact absurd (toDecimal_digits h) (by decide)
    · simp at h
  · exact absurd (toDecimal_digits hm) (by decide)

theorem joinSlash_head? (p : List Char) (rest : List (List Char))
    (hp : p ≠ []) : (joinSlash (p :: rest)).head? = p.head? := by
  cases rest with
  | nil => rfl
  | cons q rest' =>
    simp only [joinSlash]
    exact List.head?_append_of_ne_nil _ hp

theorem mapMExcept_formatComponent {cs : List Nat}
    (h : ∀ c ∈ cs, c < 2 ^ 32) :
    mapMExcept parseComponent (cs.map formatComponent) = .ok cs := by
  induction cs with
  | nil => rfl
  | cons c t ih =>
    simp only [List.map_cons, mapMExcept]
    rw [parseComponent_formatComponent (h c (List.mem_cons_self c t))]
    rw [ih (fun x hx => h x (List.mem_cons_of_mem c hx))]

theorem mapMExcept_ok_forall {α β ε : Type} {f : α → Except ε β} :
    ∀ {l : List α} {ys : List β}, mapMExcept f l = .ok ys →
      ∀ y ∈ ys, ∃ x, f x = .ok y := by
  intro l
  induction l with
  | nil =>
    intro ys h y hy
    simp only [mapMExcept] at h
    cases h
    simp at hy
  | cons x xs ih =>
    intro ys h y hy
    simp only [mapMExcept] at h
    cases hfx : f x with
    | error e => rw [hfx] at h; cases h
    | ok b =>
      rw [hfx] at h
      cases hrec : mapMExcept f xs with
      | error e => rw [hrec] at h; cases h
      | ok bs =>
        rw [hrec] at h
        cases h
        rcases List.mem_cons.mp hy with rfl | hmem
        · exact ⟨x, hfx⟩
        · exact ih hrec y hmem

theorem rustParseU32Digits_lt {s : List Char} {n : Nat}
    (h : rustParseU32Digits s = some n) : n < 2 ^ 32 := by
  unfold rustParseU32Digits at h
  split at h
  · cases h
  · split at h
    · split at h
      · rw [Option.some_inj] at h
        omega
      · cases h
    · cases h

theorem rustParseU32_lt {s : List Char} {n : Nat} (h : rustParseU32 s = some n) :
    n < 2 ^ 32 := by
  unfold rustParseU32 at h
  exact rustParseU32Digits_lt h

theorem parseComponent_lt {part : List Char} {n : Nat}
    (h : parseComponent part = .ok n) : n < 2 ^ 32 := by
  unfold parseComponent at h
  split at h
  · cases hp : rustParseU32 part.dropLast with
    | none => rw [hp] at h; cases h
    | some num =>
      rw [hp] at h
      rw [Except.ok.injEq] at h
      subst h
      exact Nat.or_lt_two_pow (rustParseU32_lt hp) (by norm_num)
  · cases hp : rustParseU32 part with
    | none => rw [hp] at h; cases h
    | some num =>
      rw [hp] at h
      rw [Except.ok.injEq] at h
      subst h
      exact rustParseU32_lt hp

theorem except_bind_ok {α β ε : Type} (a : α) (f : α → Except ε β) :
    (Except.ok (ε := ε) a).bind f = f a :=
  rfl

theorem except_bind_error {α β ε : Type} (e : ε) (f : α → Except ε β) :
    (Except.error (α := α) e).bind f = .error (α := β) e :=
  rfl

theorem parse_path_ok_props {P : List Char} {cs : List Nat}
    (h : parse_path P = .ok cs) : cs ≠ [] ∧ ∀ c ∈ cs, c < 2 ^ 32 := by
  unfold parse_path at h
  cases hm : mapMExcept parseComponent (rustSplit '/' (trimStartMatchesMSlash P)) with
  | error e => rw [hm, except_bind_error] at h; cases h
  | ok comps =>
    rw [hm, except_bind_ok] at h
    split at h
    · cases h
    · rename_i hne
      rw [Except.ok.injEq] at h
      subst h
      refine ⟨?_, ?_⟩
      · intro hcontra
        exact hne (by rw [hcontra]; rfl)
      · intro c hc
        obtain ⟨x, hx⟩ := mapMExcept_ok_forall hm c hc
        exact parseComponent_lt hx

theorem parse_path_format_path {cs : List Nat} (hne : cs ≠ [])
    (hbound : ∀ c ∈ cs, c < 2 ^ 32) :
    parse_path (format_path cs) = .ok cs := by
  unfold parse_path format_path
  obtain ⟨c0, cs', rfl⟩ : ∃ c0 cs', cs = c0 :: cs' := by
    cases cs with
    | nil => exact absurd rfl hne
    | cons a b => exact ⟨a, b, rfl⟩
  rw [trimStartMatchesMSlash_cons_m]
  have hbody : (joinSlash ((c0 :: cs').map formatComponent)).head? ≠ some 'm' := by
    rw [List.map_cons, joinSlash_head? _ _ (formatComponent_ne_nil c0)]
    obtain ⟨c, hc, hcd⟩ := formatComponent_head?_digit c0
    rw [hc]
    intro he
    rw [Option.some_inj] at he
    rw [he] at hcd
    exact absurd hcd (by decide)
  rw [trimStartMatchesMSlash_of_head_ne _ hbody]
  rw [rustSplit_joinSlash _ (by simp)
    (by
      intro p hp
      rw [List.mem_map] at hp
      obtain ⟨a, _, rfl⟩ := hp
      exact formatComponent_no_slash a)]
  rw [mapMExcept_formatComponent hbound, except_bind_ok]
  simp

/-- Spelling out "P has a canonical spelling": P is the canonical rendering of
some nonempty component list (leading `m/`, hardened components with a trailing
apostrophe, decimal values). -/
def isCanonicalPath (P : List Char) : Prop :=
  ∃ cs : List Nat, cs ≠ [] ∧ (∀ c ∈ cs, c < 2 ^ 32) ∧ format_path cs = P

/-- C5: for every accepted derivation-path string,
`parse_path (format_path (parse_path P)) = parse_path P`; moreover formatting
any (valid, nonempty) component list re-parses to itself, and for canonical
input `format_path (parse_path P) = P`. -/
theorem c5_parse_format_roundtrip :
    (∀ (P : List Char) (cs : List Nat), parse_path P = .ok cs →
        parse_path (format_path cs) = .ok cs)
    ∧ (∀ cs : List Nat, cs ≠ [] → (∀ c ∈ cs, c < 2 ^ 32) →
        parse_path (format_path cs) = .ok cs)
    ∧ (∀ (P : List Char) (cs : List Nat), isCanonicalPath P →
        parse_path P = .ok cs → format_path cs = P) := by
  refine ⟨?_, ?_, ?_⟩
  · intro P cs h
    obtain ⟨hne, hbound⟩ := parse_path_ok_props h
    exact parse_path_format_path hne hbound
  · intro cs hne hbound
    exact parse_path_format_path hne hbound
  · intro P cs hcanon h
    obtain ⟨cs0, hne0, hbound0, hfmt⟩ := hcanon
    have hparse0 : parse_path P = .ok cs0 := by
      rw [← hfmt]
      exact parse_path_format_path hne0 hbound0
    rw [h] at hparse0
    rw [Except.ok.injEq] at hparse0
    rw [← hparse0] at hfmt
    exact hfmt

/-- Witness for `c5_parse_format_roundtrip` at the concrete canonical path
`"m/44'/501'/0'/1"` and the component list it parses to. -/
theorem c5_parse_format_roundtrip_witness :
    parse_path ['m', '/', '4', '4', '\'', '/', '5', '0', '1', '\'', '/', '0',
        '\'', '/', '1']
      = .ok [2147483692, 2147484149, 2147483648, 1]
    ∧ parse_path (format_path [2147483692, 2147484149, 2147483648, 1])
      = .ok [2147483692, 2147484149, 2147483648, 1]
    ∧ format_path [2147483692, 2147484149, 2147483648, 1]
      = ['m', '/', '4', '4', '\'', '/', '5', '0', '1', '\'', '/', '0', '\'',
         '/', '1'] := by
  refine ⟨by decide, ?_, ?_⟩
  · exact c5_parse_format_roundtrip.1
      ['m', '/', '4', '4', '\'', '/', '5', '0', '1', '\'', '/', '0', '\'',
       '/', '1']
      [2147483692, 2147484149, 2147483648, 1] (by decide)
  · exact c5_parse_format_roundtrip.2.2
      ['m', '/', '4', '4', '\'', '/', '5', '0', '1', '\'', '/', '0', '\'',
       '/', '1']
      [2147483692, 2147484149, 2147483648, 1]
      ⟨[2147483692, 2147484149, 2147483648, 1], by decide, by decide, by decide⟩
      (by decide)

/-! ## §4 Ledger transport: src/crates/solana-keyring/src/ledger/transport.rs -/

/-- Big-endian bytes of a u32 component (`u32::to_be_bytes`). -/
def u32BeBytes (c : Nat) : List Nat :=
  [c / 2 ^ 24 % 256, c / 2 ^ 16 % 256, c / 2 ^ 8 % 256, c % 256]

/-- `serialize_derivation_path` (transport.rs:78-84): a length byte
(`path.len() as u8`) followed by each component big-endian. -/
def serialize_derivation_path (path : List Nat) : List Nat :=
  path.length % 256 :: (path.map u32BeBytes).flatten

/-- `slice::chunks(255)` with explicit fuel (structural recursion so that the
definition evaluates): no chunks for an empty slice, otherwise 255-byte pieces
in order with a shorter final piece. -/
def chunksAux : Nat → List Nat → List (List Nat)
  | 0, _ => []
  | _, [] => []
  | fuel + 1, l@(_ :: _) => l.take 255 :: chunksAux fuel (l.drop 255)

/-- `data.chunks(255)`. -/
def chunksOf255 (l : List Nat) : List (List Nat) :=
  chunksAux l.length l

/-- One APDU exchange as issued by the transport
(`exchange_apdu(&transport, cla, ins, p1, p2, data)`). -/
structure ApduCall where
  cla : Nat
  ins : Nat
  p1 : Nat
  p2 : Nat
  data : List Nat
deriving Repr, DecidableEq

/-- The chunk loop of `sign_message` (transport.rs:37-46).  `exchanges i` is
the device's reply to the `i`-th exchange (the external HID device); `total`
is `chunks.len()`.  The returned trace records the APDUs issued before the
loop stopped; the `Option` is the `signature` variable, set only on the last
chunk. -/
def signLoop (exchanges : Nat → Except Error (List Nat)) (total : Nat) :
    Nat → List (List Nat) → List ApduCall × Except Error (Option (List Nat))
  | _, [] => ([], .ok none)
  | i, chunk :: rest =>
    let p1 : Nat := if i = 0 then 0x00 else 0x80
    let p2 : Nat := if i = total - 1 then 0x00 else 0x80
    let call : ApduCall := ⟨0xE0, 0x06, p1, p2, chunk⟩
    match exchanges i with
    | .error e => ([call], .error e)
    | .ok response =>
      match signLoop exchanges total (i + 1) rest with
      | (calls, .error e) => (call :: calls, .error e)
      | (calls, .ok sigOpt) =>
        (call :: calls,
          .ok (match sigOpt with
            | some s => some s
            | none => if i = total - 1 then some response else none))

/-- `sign_message` (transport.rs:27-57): open the device, concatenate the
serialized path and the message, send it in 255-byte chunks, and read the
64-byte signature from the last chunk's response. -/
def sign_message (openDev : Except Error Unit)
    (exchanges : Nat → Except Error (List Nat))
    (derivation_path message : List Nat) :
    List ApduCall × Except Error (List Nat) :=
  match openDev with
  | .error e => ([], .error e)
  | .ok _ =>
    let data := serialize_derivation_path derivation_path ++ message
    let chunks := chunksOf255 data
    match signLoop exchanges chunks.length 0 chunks with
    | (calls, .error e) => (calls, .error e)
    | (calls, .ok none) => (calls, .error (.Ledger "No signature returned"))
    | (calls, .ok (some sig_bytes)) =>
      (calls,
        if sig_bytes.length < 64 then .error (.Ledger "Invalid signature response")
        else .ok (sig_bytes.take 64))

theorem chunksAux_nil (fuel : Nat) : chunksAux fuel [] = [] := by
  cases fuel <;> rfl

theorem chunksAux_flatten :
    ∀ fuel (l : List Nat), l.length ≤ fuel → (chunksAux fuel l).flatten = l := by
  intro fuel
  induction fuel with
  | zero =>
    intro l h
    have : l = [] := List.eq_nil_of_length_eq_zero (by omega)
    subst this
    rfl
  | succ fuel ih =>
    intro l h
    cases l with
    | nil => rfl
    | cons x xs =>
      simp only [chunksAux, List.flatten_cons]
      rw [ih ((x :: xs).drop 255) (by simp [List.length_drop]; simp at h; omega)]
      exact List.take_append_drop 255 (x :: xs)

theorem chunksAux_mem :
    ∀ fuel (l : List Nat) c, c ∈ chunksAux fuel l → c ≠ [] ∧ c.length ≤ 255 := by
  intro fuel
  induction fuel with
  | zero => intro l c hc; simp [chunksAux] at hc
  | succ fuel ih =>
    intro l c hc
    cases l with
    | nil => simp [chunksAux] at hc
    | cons x xs =>
      simp only [chunksAux, List.mem_cons] at hc
      rcases hc with rfl | hc
      · constructor
        · simp [List.take_cons]
        · simp [List.length_take]
      · exact ih _ _ hc

theorem chunksAux_full :
    ∀ fuel (l : List Nat) k, k + 1 < (chunksAux fuel l).length →
      ((chunksAux fuel l).getD k []).length = 255 := by
  intro fuel
  induction fuel with
  | zero => intro l k hk; simp [chunksAux] at hk
  | succ fuel ih =>
    intro l k hk
    cases l with
    | nil => simp [chunksAux] at hk
    | cons x xs =>
      simp only [chunksAux] at hk ⊢
      cases k with
      | zero =>
        simp only [List.getD_cons_zero]
        have hdrop : (x :: xs).drop 255 ≠ [] := by
          intro hcontra
          rw [hcontra, chunksAux_nil] at hk
          simp at hk
        have hlen : 255 < (x :: xs).length := by
          by_contra hle
          push_neg at hle
          exact hdrop (List.drop_eq_nil_of_le hle)
        rw [List.length_take]
        simp only [List.length_cons] at hlen ⊢
        omega
      | succ k' =>
        simp only [List.getD_cons_succ]
        exact ih _ k' (by simp only [List.length_cons] at hk; omega)

theorem chunksOf255_ne_nil {l : List Nat} (h : l ≠ []) : chunksOf255 l ≠ [] := by
  unfold chunksOf255
  cases l with
  | nil => exact absurd rfl h
  | cons x xs => simp [chunksAux]

theorem signLoop_spec (exchanges : Nat → Except Error (List Nat))
    (resp : Nat → List Nat) (total : Nat)
    (hex : ∀ j, j < total → exchanges j = .ok (resp j)) :
    ∀ (cs : List (List Nat)) (i : Nat), i + cs.length = total →
      signLoop exchanges total i cs
        = ((cs.enumFrom i).map (fun p =>
              ⟨0xE0, 0x06, if p.1 = 0 then 0x00 else 0x80,
               if p.1 = total - 1 then 0x00 else 0x80, p.2⟩),
           .ok (if cs.length = 0 then none else some (resp (total - 1)))) := by
  intro cs
  induction cs with
  | nil =>
    intro i hi
    simp only [signLoop, List.enumFrom_nil, List.map_nil, List.length_nil]
    norm_num
  | cons c rest ih =>
    intro i hi
    simp only [List.length_cons] at hi
    have hilt : i < total := by omega
    simp only [signLoop]
    rw [hex i hilt]
    rw [ih (i + 1) (by omega)]
    simp only [List.enumFrom_cons, List.map_cons]
    cases rest with
    | nil =>
      have hieq : i = total - 1 := by
        simp only [List.length_nil] at hi
        omega
      simp [hieq]
    | cons d rest' =>
      simp

/-- C6: the hardware sign operation sends `serialized-path ‖ message` split
into 255-byte chunks in order (each chunk but the last full, their
concatenation the payload), chunk `k` carrying `P1 = 0x00` iff it is the
first and `P2 = 0x00` iff it is the last (`0x80` otherwise), and only the
last chunk's response is read as the 64-byte signature. -/
theorem c6_sign_message_chunking
    (exchanges : Nat → Except Error (List Nat)) (resp : Nat → List Nat)
    (derivation_path message data : List Nat) (chunks : List (List Nat))
    (hdata : data = serialize_derivation_path derivation_path ++ message)
    (hchunks : chunks = chunksOf255 data)
    (hex : ∀ j, j < chunks.length → exchanges j = .ok (resp j)) :
    chunks.flatten = data
    ∧ (∀ c ∈ chunks, c ≠ [] ∧ c.length ≤ 255)
    ∧ (∀ k, k + 1 < chunks.length → (chunks.getD k []).length = 255)
    ∧ (sign_message (.ok ()) exchanges derivation_path message).1
        = chunks.enum.map (fun p =>
            ⟨0xE0, 0x06, if p.1 = 0 then 0x00 else 0x80,
             if p.1 = chunks.length - 1 then 0x00 else 0x80, p.2⟩)
    ∧ (sign_message (.ok ()) exchanges derivation_path message).2
        = (if (resp (chunks.length - 1)).length < 64 then
            .error (.Ledger "Invalid signature response")
          else .ok ((resp (chunks.length - 1)).take 64)) := by
  have hdne : data ≠ [] := by
    rw [hdata]
    unfold serialize_derivation_path
    simp
  have hcne : chunks ≠ [] := by
    rw [hchunks]
    exact chunksOf255_ne_nil hdne
  have hsm1 : sign_message (.ok ()) exchanges derivation_path message
      = (match signLoop exchanges
            (chunksOf255 (serialize_derivation_path derivation_path ++ message)).length
            0 (chunksOf255 (serialize_derivation_path derivation_path ++ message)) with
        | (calls, .error e) => (calls, .error e)
        | (calls, .ok none) => (calls, .error (.Ledger "No signature returned"))
        | (calls, .ok (some sig_bytes)) =>
          (calls,
            if sig_bytes.length < 64 then
              .error (.Ledger "Invalid signature response")
            else .ok (sig_bytes.take 64))) := rfl
  rw [← hdata, ← hchunks] at hsm1
  rw [signLoop_spec exchanges resp chunks.length hex chunks 0 (by omega)] at hsm1
  rw [if_neg (by
    intro hcontra
    exact hcne (List.eq_nil_of_length_eq_zero hcontra))] at hsm1
  have hsm : sign_message (.ok ()) exchanges derivation_path message
      = (chunks.enum.map (fun p =>
            ⟨0xE0, 0x06, if p.1 = 0 then 0x00 else 0x80,
             if p.1 = chunks.length - 1 then 0x00 else 0x80, p.2⟩),
         if (resp (chunks.length - 1)).length < 64 then
            .error (.Ledger "Invalid signature response")
          else .ok ((resp (chunks.length - 1)).take 64)) := hsm1
  refine ⟨?_, ?_, ?_, ?_, ?_⟩
  · rw [hchunks, hdata]
    exact chunksAux_flatten _ _ le_rfl
  · intro c hc
    rw [hchunks] at hc
    exact chunksAux_mem _ _ _ hc
  · intro k hk
    rw [hchunks] at hk ⊢
    exact chunksAux_full _ _ k hk
  · rw [hsm]
  · rw [hsm]

/-- Witness for `c6_sign_message_chunking` at the concrete path `[1]` and
one-byte message `[2]` (a single chunk), against a device answering a 64-byte
response. -/
theorem c6_sign_message_chunking_witness :
    (chunksOf255 (serialize_derivation_path [1] ++ [2])).flatten
        = serialize_derivation_path [1] ++ [2]
    ∧ (∀ c ∈ chunksOf255 (serialize_derivation_path [1] ++ [2]),
        c ≠ [] ∧ c.length ≤ 255)
    ∧ (∀ k, k + 1 < (chunksOf255 (serialize_derivation_path [1] ++ [2])).length →
        ((chunksOf255 (serialize_derivation_path [1] ++ [2])).getD k []).length
          = 255)
    ∧ (sign_message (.ok ()) (fun _ => .ok (List.replicate 64 9)) [1] [2]).1
        = (chunksOf255 (serialize_derivation_path [1] ++ [2])).enum.map (fun p =>
            ⟨0xE0, 0x06, if p.1 = 0 then 0x00 else 0x80,
             if p.1 = (chunksOf255 (serialize_derivation_path [1] ++ [2])).length - 1
               then 0x00 else 0x80, p.2⟩)
    ∧ (sign_message (.ok ()) (fun _ => .ok (List.replicate 64 9)) [1] [2]).2
        = (if (List.replicate (64 : Nat) (9 : Nat)).length < 64 then
            .error (.Ledger "Invalid signature response")
          else .ok ((List.replicate (64 : Nat) (9 : Nat)).take 64)) :=
  c6_sign_message_chunking (fun _ => .ok (List.replicate 64 9))
    (fun _ => List.replicate 64 9) [1] [2]
    (serialize_derivation_path [1] ++ [2])
    (chunksOf255 (serialize_derivation_path [1] ++ [2]))
    rfl rfl (fun _ _ => rfl)

/-- Outcome of the response-parsing tail of `exchange_apdu`; `panic` stands
for a Rust index-out-of-bounds panic. -/
inductive ApduOutcome where
  | panic
  | err (msg : String)
  | ok (payload : List Nat)
deriving Repr, DecidableEq

/-- The response-parsing tail of `exchange_apdu` (transport.rs:123-142),
applied to the 65-byte buffer filled by `read_timeout`.  Indices 5 and 6 are
read after the explicit `len < 9` check (in-bounds); the status-word reads at
`data_end = 7 + data_len - 2` and `data_end + 1` are unchecked Rust indexing,
modelled as `panic` when out of bounds.  (The Rust message formats the status
word in hexadecimal.) -/
def exchange_apdu_parse (response : List Nat) : ApduOutcome :=
  if response.length < 9 then .err "Invalid response"
  else if response.getD 5 0 * 256 + response.getD 6 0 < 2 then
    .err "Invalid response length"
  else
    match response[7 + (response.getD 5 0 * 256 + response.getD 6 0) - 2]?,
        response[7 + (response.getD 5 0 * 256 + response.getD 6 0) - 2 + 1]? with
    | some hi, some lo =>
      if hi * 256 + lo ≠ 0x9000 then
        .err ("Ledger error: " ++ toString (hi * 256 + lo))
      else
        .ok ((response.take
          (7 + (response.getD 5 0 * 256 + response.getD 6 0) - 2)).drop 7)
    | _, _ => .panic

/-- The phrasing of claim C10: on every 65-byte response buffer the parse
returns a payload or an error and never panics. -/
def exchangeApduParseTotal : Prop :=
  ∀ response : List Nat, response.length = 65 →
    exchange_apdu_parse response ≠ .panic

/-- C10 counterexample: a 65-byte buffer whose declared data length is 60
drives the status-word read to index 65, out of bounds — the parse panics. -/
theorem c10_exchange_apdu_parse_counterexample :
    exchange_apdu_parse
        ([0, 0, 0, 0, 0, 0, 60] ++ List.replicate 58 0) = .panic
    ∧ ([0, 0, 0, 0, 0, 0, 60] ++ List.replicate 58 (0 : Nat)).length = 65
    ∧ ¬ exchangeApduParseTotal := by
  refine ⟨by decide, by decide, fun h => ?_⟩
  have := h ([0, 0, 0, 0, 0, 0, 60] ++ List.replicate 58 0) (by decide)
  exact this (by decide)

/-- C10 amended: the parse is total — returns a payload or an error, never a
panic — exactly for responses whose declared data length is at most 58 (so
that the status word fits the 65-byte buffer); for any declared length of 59
or more it panics on the out-of-bounds status-word read. -/
theorem c10_exchange_apdu_parse_partial_totality (response : List Nat)
    (hlen : response.length = 65) :
    (response.getD 5 0 * 256 + response.getD 6 0 ≤ 58 →
      exchange_apdu_parse response ≠ .panic)
    ∧ (59 ≤ response.getD 5 0 * 256 + response.getD 6 0 →
      exchange_apdu_parse response = .panic) := by
  unfold exchange_apdu_parse
  rw [if_neg (by omega)]
  constructor
  · intro hle
    split
    · exact fun hcontra => ApduOutcome.noConfusion hcontra
    · rename_i hge
      push_neg at hge
      have h1 : 7 + (response.getD 5 0 * 256 + response.getD 6 0) - 2
          < response.length := by omega
      have h2 : 7 + (response.getD 5 0 * 256 + response.getD 6 0) - 2 + 1
          < response.length := by omega
      rw [List.getElem?_eq_getElem h1, List.getElem?_eq_getElem h2]
      show ¬ (if _ ≠ 0x9000 then _ else _) = ApduOutcome.panic
      split
      · exact fun hcontra => ApduOutcome.noConfusion hcontra
      · exact fun hcontra => ApduOutcome.noConfusion hcontra
  · intro hge
    rw [if_neg (by omega)]
    rw [show response[7 + (response.getD 5 0 * 256 + response.getD 6 0) - 2 + 1]?
        = none from List.getElem?_eq_none (by omega)]
    cases hfst : response[7 + (response.getD 5 0 * 256 + response.getD 6 0) - 2]? <;>
      rfl

/-- Witness for `c10_exchange_apdu_parse_partial_totality` at a concrete
success response (`data_len = 2`, status word `0x9000`). -/
theorem c10_exchange_apdu_parse_partial_totality_witness :
    (([0, 0, 0, 0, 0, 0, 2, 0x90, 0x00] ++ List.replicate 56 (0 : Nat)).getD 5 0
          * 256
        + ([0, 0, 0, 0, 0, 0, 2, 0x90, 0x00] ++ List.replicate 56 (0 : Nat)).getD 6 0
        ≤ 58 →
      exchange_apdu_parse
          ([0, 0, 0, 0, 0, 0, 2, 0x90, 0x00] ++ List.replicate 56 0) ≠ .panic) ∧
    (59 ≤ ([0, 0, 0, 0, 0, 0, 2, 0x90, 0x00] ++ List.replicate 56 (0 : Nat)).getD 5 0
          * 256
        + ([0, 0, 0, 0, 0, 0, 2, 0x90, 0x00] ++ List.replicate 56 (0 : Nat)).getD 6 0 →
      exchange_apdu_parse
          ([0, 0, 0, 0, 0, 0, 2, 0x90, 0x00] ++ List.replicate 56 0) = .panic) :=
  c10_exchange_apdu_parse_partial_totality
    ([0, 0, 0, 0, 0, 0, 2, 0x90, 0x00] ++ List.replicate 56 0) (by decide)

/-! ## §5 Unlock agent: src/crates/solana-keyring-agent/src/agent.rs and
protocol.rs, with src/crates/solana-keyring/src/crypto/kdf.rs and the
verification path of src/crates/solana-keyring/src/db/mod.rs -/

/-- `ErrorCode` from protocol.rs:122-130 — these six are all the protocol's
error kinds. -/
inductive ErrorCode where
  | Locked
  | InvalidPassphrase
  | SignerNotFound
  | InvalidTransaction
  | HardwareError
  | InternalError
deriving Repr, DecidableEq

/-- The `Display` impl for `ErrorCode` (protocol.rs:132-143): the wire
spelling of each error kind. -/
def ErrorCode.display : ErrorCode → String
  | .Locked => "LOCKED"
  | .InvalidPassphrase => "INVALID_PASSPHRASE"
  | .SignerNotFound => "SIGNER_NOT_FOUND"
  | .InvalidTransaction => "INVALID_TRANSACTION"
  | .HardwareError => "HARDWARE_ERROR"
  | .InternalError => "INTERNAL_ERROR"

/-- `ResponseResult` (protocol.rs:85-94); the payloads the embedded handlers
produce. -/
inductive ResponseResult where
  | Pong
  | SignedTransaction (sig : String)
  | Status (unlocked : Bool) (uptime_seconds : Nat) (signer_count : Nat)
      (lock_timeout_seconds : Nat)
  | Unit
deriving Repr, DecidableEq

/-- `Response` (protocol.rs:61-82). -/
inductive Response where
  | ok (result : ResponseResult)
  | error (code : ErrorCode) (message : String)
deriving Repr, DecidableEq

/-- The `Display` strings of the `Error` variants (thiserror attributes in
error.rs), used where the agent stringifies an error. -/
def Error.display : Error → String
  | .Database m => "Database error: " ++ m
  | .Encryption m => "Encryption error: " ++ m
  | .KeyDerivation m => "Key derivation error: " ++ m
  | .InvalidPassphrase => "Invalid passphrase"
  | .NotInitialized => "Keyring not initialized. Run 'solana-keyring new' first"
  | .AlreadyExists m => "Keyring already exists at " ++ m
  | .KeypairNotFound m => "Keypair not found: " ++ m
  | .InvalidKeypairFormat m => "Invalid keypair format: " ++ m
  | .Ledger m => "Ledger error: " ++ m
  | .LedgerNotConnected => "Ledger device not connected"

/-- The `config` row (db/mod.rs, table `config`): password salt and hash. -/
structure DbConfig where
  password_salt : List Nat
  password_hash : List Nat
deriving Repr, DecidableEq

/-- The constant-time comparison in `verify_password` (kdf.rs:58-63): fold the
or of byte xors and compare with zero. -/
def constantTimeEq (a b : List Nat) : Bool :=
  ((a.zip b).foldl (fun acc p => acc ||| (p.1 ^^^ p.2)) 0) == 0

/-- `verify_password` (kdf.rs:56-64); `kdf` is the external Argon2id
`hash_password`. -/
def verify_password (kdf : List Nat → List Nat → List Nat)
    (password salt expected_hash : List Nat) : Bool :=
  constantTimeEq (kdf password salt) expected_hash

/-- `AgentState` (agent.rs:18-24); `db_path` is carried by the environment
(the handlers reopen the database through it), instants are `Nat`. -/
structure AgentState where
  passphrase : Option (List Nat)
  unlocked_at : Option Nat
  started_at : Nat
  lock_timeout : Nat
deriving Repr, DecidableEq

/-- `AgentState::is_unlocked` (agent.rs:37-39). -/
def AgentState.is_unlocked (s : AgentState) : Bool :=
  s.passphrase.isSome

/-- `AgentState::unlock` (agent.rs:41-44). -/
def AgentState.unlock (s : AgentState) (passphrase : List Nat) (now : Nat) :
    AgentState :=
  { s with passphrase := some passphrase, unlocked_at := some now }

/-- `AgentState::lock` (agent.rs:46-49). -/
def AgentState.lock (s : AgentState) : AgentState :=
  { s with passphrase := none, unlocked_at := none }

/-- `AgentState::check_timeout` (agent.rs:51-58): lock when
`unlocked_at.elapsed() > lock_timeout`; `elapsed` is the saturating
`now - unlocked_at`. -/
def AgentState.check_timeout (s : AgentState) (now : Nat) : AgentState :=
  match s.unlocked_at with
  | some unlocked_at =>
    if now - unlocked_at > s.lock_timeout then s.lock else s
  | none => s

/-- `Database::verify_passphrase` (db/mod.rs:82-106): read the config row
(absent ⇒ `NotInitialized`), check the stored salt/hash are 32 bytes, then
compare in constant time. -/
def db_verify_passphrase (kdf : List Nat → List Nat → List Nat)
    (config : Option DbConfig) (passphrase : List Nat) : Except Error Bool :=
  match config with
  | none => .error .NotInitialized
  | some cfg =>
    if cfg.password_salt.length ≠ 32 then
      .error (.Database "Invalid salt length")
    else if cfg.password_hash.length ≠ 32 then
      .error (.Database "Invalid hash length")
    else
      .ok (verify_password kdf passphrase cfg.password_salt cfg.password_hash)

/-- The `Request::Unlock` arm of `process_request` (agent.rs:183-200):
open the database, verify the passphrase; on success store it and stamp
`unlocked_at = now`, on mismatch reply `InvalidPassphrase` leaving the state
untouched. -/
def process_unlock (kdf : List Nat → List Nat → List Nat)
    (openDb : Except String (Option DbConfig)) (st : AgentState)
    (passphrase : List Nat) (now : Nat) : AgentState × Response :=
  match openDb with
  | .error e => (st, .error .InternalError e)
  | .ok config =>
    match db_verify_passphrase kdf config passphrase with
    | .ok true => (st.unlock passphrase now, .ok .Unit)
    | .ok false => (st, .error .InvalidPassphrase "Invalid passphrase")
    | .error e => (st, .error .InternalError e.display)

/-- C4: a failed Unlock leaves the agent state unchanged (so `is_unlocked`
stays false when it was false) and replies `InvalidPassphrase`; a successful
Unlock stores the passphrase and sets `unlocked_at = now`, making
`is_unlocked` true; and once more than `lock_timeout` has elapsed since
`unlocked_at`, the periodic `check_timeout` clears passphrase and timestamp,
returning `is_unlocked` to false. -/
theorem c4_unlock_state_machine :
    (∀ (kdf : List Nat → List Nat → List Nat) (config : Option DbConfig)
        (st : AgentState) (p : List Nat) (now : Nat),
      db_verify_passphrase kdf config p = .ok false →
        process_unlock kdf (.ok config) st p now
            = (st, .error .InvalidPassphrase "Invalid passphrase")
        ∧ (process_unlock kdf (.ok config) st p now).1.is_unlocked
            = st.is_unlocked)
    ∧ (∀ (kdf : List Nat → List Nat → List Nat) (config : Option DbConfig)
        (st : AgentState) (p : List Nat) (now : Nat),
      db_verify_passphrase kdf config p = .ok true →
        process_unlock kdf (.ok config) st p now = (st.unlock p now, .ok .Unit)
        ∧ (process_unlock kdf (.ok config) st p now).1.is_unlocked = true
        ∧ (process_unlock kdf (.ok config) st p now).1.unlocked_at = some now)
    ∧ (∀ (st : AgentState) (now u : Nat),
      st.unlocked_at = some u → now - u > st.lock_timeout →
        st.check_timeout now = st.lock
        ∧ (st.check_timeout now).passphrase = none
        ∧ (st.check_timeout now).is_unlocked = false) := by
  refine ⟨?_, ?_, ?_⟩
  · intro kdf config st p now hv
    simp [process_unlock, hv]
  · intro kdf config st p now hv
    simp [process_unlock, hv, AgentState.unlock, AgentState.is_unlocked]
  · intro st now u hu hlt
    have hct : st.check_timeout now = st.lock := by
      unfold AgentState.check_timeout
      rw [hu]
      simp only
      rw [if_pos hlt]
    refine ⟨hct, ?_, ?_⟩
    · rw [hct]
      rfl
    · rw [hct]
      rfl

/-- Witness for `c4_unlock_state_machine`: a concrete KDF and config where a
wrong passphrase fails, the right one succeeds, and a timed-out state locks. -/
theorem c4_unlock_state_machine_witness :
    (process_unlock (fun p _ => p) (.ok (some ⟨List.replicate 32 0, List.replicate 32 0⟩))
        ⟨none, none, 0, 300⟩ (List.replicate 32 1) 5
      = (⟨none, none, 0, 300⟩, .error .InvalidPassphrase "Invalid passphrase"))
    ∧ (process_unlock (fun p _ => p) (.ok (some ⟨List.replicate 32 0, List.replicate 32 0⟩))
        ⟨none, none, 0, 300⟩ (List.replicate 32 0) 5
      = (AgentState.unlock ⟨none, none, 0, 300⟩ (List.replicate 32 0) 5, .ok .Unit))
    ∧ AgentState.check_timeout ⟨some (List.replicate 32 0), some 5, 0, 300⟩ 400
      = AgentState.lock ⟨some (List.replicate 32 0), some 5, 0, 300⟩ := by
  refine ⟨?_, ?_, ?_⟩
  · exact (c4_unlock_state_machine.1 (fun p _ => p)
      (some ⟨List.replicate 32 0, List.replicate 32 0⟩)
      ⟨none, none, 0, 300⟩ (List.replicate 32 1) 5 (by decide)).1
  · exact (c4_unlock_state_machine.2.1 (fun p _ => p)
      (some ⟨List.replicate 32 0, List.replicate 32 0⟩)
      ⟨none, none, 0, 300⟩ (List.replicate 32 0) 5 (by decide)).1
  · exact (c4_unlock_state_machine.2.2
      ⟨some (List.replicate 32 0), some 5, 0, 300⟩ 400 5 rfl (by decide)).1

/-- `AuthResult` from the biometric crate (solana-keyring-biometric). -/
inductive AuthResult where
  | Authenticated
  | Denied
  | NotAvailable
deriving Repr, DecidableEq

/-- The actions of the SignTransaction handler the claim cares about: whether
the keypair was loaded and whether a signature was produced. -/
inductive AgentAction where
  | loadedKeypair
  | signed
deriving Repr, DecidableEq

/-- Environment of the `Request::SignTransaction` arm: outcomes of the
external steps in their source order (database open, base64 decode,
transaction summary, display-label lookup, biometric confirmation, keypair
load). -/
structure SignEnv where
  openDb : Except String Unit
  decodeBase64 : Except String (List Nat)
  summary : Option String
  signerLabel : Option String
  biometric : Except String AuthResult
  loadKeypair : Except Error SecureKeypair

/-- The `Request::SignTransaction` arm of `process_request`
(agent.rs:233-312): locked check, database open, base64 decode, summary and
label for display, biometric confirmation (denial aborts; unavailability and
biometric errors continue), then keypair load and signing.  `sign` is the
external Ed25519 signing and `b64enc` the external base64 encoder; the trace
records whether the load/sign steps were reached. -/
def process_sign_transaction (sign : List Nat → List Nat → List Nat)
    (b64enc : List Nat → String) (env : SignEnv) (st : AgentState) :
    List AgentAction × Response :=
  if !st.is_unlocked then ([], .error .Locked "Agent is locked")
  else
    match env.openDb with
    | .error e => ([], .error .InternalError e)
    | .ok _ =>
      match env.decodeBase64 with
      | .error e => ([], .error .InvalidTransaction e)
      | .ok tx_bytes =>
        match env.biometric with
        | .ok .Denied => ([], .error .InternalError "User cancelled signing")
        | _ =>
          match env.loadKeypair with
          | .ok keypair =>
            ([.loadedKeypair, .signed],
              .ok (.SignedTransaction (b64enc (sign keypair.secret tx_bytes))))
          | .error e => ([.loadedKeypair], .error .SignerNotFound e.display)

/-- The phrasing of claim C8: a biometric denial makes the agent answer with
an error whose kind renders as `USER_CANCELLED` on the wire. -/
def denialYieldsUserCancelled (sign : List Nat → List Nat → List Nat)
    (b64enc : List Nat → String) : Prop :=
  ∀ (env : SignEnv) (st : AgentState), st.is_unlocked = true →
    env.openDb = .ok () → (∃ b, env.decodeBase64 = .ok b) →
    env.biometric = .ok .Denied →
    ∃ code msg, process_sign_transaction sign b64enc env st
        = ([], .error code msg)
      ∧ code.display = "USER_CANCELLED"

/-- C8 counterexample: at a concrete unlocked state and denying biometric the
agent replies with `InternalError` ("User cancelled signing"); moreover no
protocol error code at all renders as `USER_CANCELLED`, so the claim holds
for no signing/encoding functions. -/
theorem c8_denial_error_kind_counterexample :
    process_sign_transaction (fun _ _ => []) (fun _ => "")
        ⟨.ok (), .ok [1], none, none, .ok .Denied, .ok ⟨[], []⟩⟩
        ⟨some [0], some 0, 0, 300⟩
      = ([], .error .InternalError "User cancelled signing")
    ∧ (∀ c : ErrorCode, c.display ≠ "USER_CANCELLED")
    ∧ ¬ denialYieldsUserCancelled (fun _ _ => []) (fun _ => "") := by
  refine ⟨by decide, ?_, ?_⟩
  · intro c
    cases c <;> decide
  · intro h
    obtain ⟨code, msg, heq, hdisp⟩ :=
      h ⟨.ok (), .ok [1], none, none, .ok .Denied, .ok ⟨[], []⟩⟩
        ⟨some [0], some 0, 0, 300⟩ (by decide) rfl ⟨[1], rfl⟩ rfl
    have hp : process_sign_transaction (fun _ _ => []) (fun _ => "")
        ⟨.ok (), .ok [1], none, none, .ok .Denied, .ok ⟨[], []⟩⟩
        ⟨some [0], some 0, 0, 300⟩
      = ([], .error .InternalError "User cancelled signing") := by decide
    rw [hp] at heq
    injection heq with h1 h2
    injection h2 with hc hm
    rw [← hc] at hdisp
    exact absurd hdisp (by decide)

/-- C8 amended: when the biometric confirmation comes back `Denied`, the
agent replies with the `InternalError` code (wire string `INTERNAL_ERROR`)
and message "User cancelled signing" — the protocol has no `UserCancelled`
code — and it neither loads the keypair nor produces a signature. -/
theorem c8_denial_internal_error (sign : List Nat → List Nat → List Nat)
    (b64enc : List Nat → String) (env : SignEnv) (st : AgentState)
    (hunlocked : st.is_unlocked = true)
    (hdb : env.openDb = .ok ())
    (hdecode : ∃ b, env.decodeBase64 = .ok b)
    (hbio : env.biometric = .ok .Denied) :
    process_sign_transaction sign b64enc env st
      = ([], .error .InternalError "User cancelled signing") := by
  obtain ⟨b, hb⟩ := hdecode
  unfold process_sign_transaction
  rw [hunlocked, hdb, hb, hbio]
  rfl

/-- Witness for `c8_denial_internal_error` at a concrete environment. -/
theorem c8_denial_internal_error_witness :
    process_sign_transaction (fun _ _ => []) (fun _ => "hi")
        ⟨.ok (), .ok [7, 7], some "s", some "l", .ok .Denied, .ok ⟨[3], [4]⟩⟩
        ⟨some [2], some 1, 0, 60⟩
      = ([], .error .InternalError "User cancelled signing") :=
  c8_denial_internal_error (fun _ _ => []) (fun _ => "hi")
    ⟨.ok (), .ok [7, 7], some "s", some "l", .ok .Denied, .ok ⟨[3], [4]⟩⟩
    ⟨some [2], some 1, 0, 60⟩ rfl rfl ⟨[7, 7], rfl⟩ rfl

/-! ## §6 Squads transport: src/crates/solana-actor-squads/src/transport.rs

Pubkeys are 32-byte strings (`List Nat`); the PDA derivations
(`get_transaction_pda`, `get_proposal_pda`; the crate's pda.rs is declared in
lib.rs, and `Pubkey::find_program_address` is solana-sdk) are deterministic
functions of the transaction index for a fixed multisig and program, kept
abstract as `getTxPda`/`getPropPda`.  Instruction building (instructions.rs)
does not influence the submitted result and is elided.  The RPC client is an
environment mapping account pubkeys to data and giving each send's outcome. -/

/-- `SquadsError` (solana-actor-squads/src/error.rs:8-53). -/
inductive SquadsError where
  | InvalidAddress (msg : String)
  | MultisigNotFound (pk : List Nat)
  | InvalidAccountData (msg : String)
  | Rpc (msg : String)
  | ProposalCreation (msg : String)
  | Approval (msg : String)
  | Execution (msg : String)
  | ProposalNotFound (pk : List Nat)
  | InsufficientApprovals (current required : Nat)
  | Signer (msg : String)
deriving Repr, DecidableEq

/-- `solana_sdk::instruction::AccountMeta`. -/
structure AccountMeta where
  pubkey : List Nat
  is_signer : Bool
  is_writable : Bool
deriving Repr, DecidableEq

/-- `SubmitResult` (solana-actor/src/transport.rs:23-55); signatures as
opaque numbers. -/
inductive SubmitResult where
  | Signed (signature : Nat)
  | Pending (proposal : List Nat) (transaction_index : Nat) (approvals : Nat)
      (threshold : Nat)
  | Executed (signature : Nat) (proposal : List Nat)
deriving Repr, DecidableEq

/-- Little-endian value of a byte list. -/
def leVal (bytes : List Nat) : Nat :=
  bytes.foldr (fun b acc => b + 256 * acc) 0

/-- Little-endian read of `len` bytes at offset `off`. -/
def readLe (data : List Nat) (off len : Nat) : Nat :=
  leVal ((data.drop off).take len)

/-- `ProposalState` (transport.rs:449-458). -/
structure ProposalState where
  approval_count : Nat
  is_executed : Bool
deriving Repr, DecidableEq

/-- `ProposalState::can_execute` (transport.rs:455-457). -/
def ProposalState.can_execute (s : ProposalState) (threshold : Nat) : Bool :=
  decide (s.approval_count ≥ threshold) && !s.is_executed

/-- `parse_proposal_state` (transport.rs:461-491): status byte at offset 48
(3 = executed), approval count little-endian at offset 50. -/
def parse_proposal_state (data : List Nat) : Except SquadsError ProposalState :=
  if data.length < 54 then .error (.InvalidAccountData "Proposal too small")
  else .ok ⟨readLe data 50 4, data.getD 48 0 == 3⟩

/-- The key loop of `parse_vault_transaction_accounts` (transport.rs:554-582):
walk `remaining` 32-byte keys from `off`, skipping the vault, writable decided
by position against the signer counts; a truncated key stops the loop. -/
def vaultKeysLoop (tx_data : List Nat) (vault_pda : List Nat)
    (num_signers num_writable_signers num_writable_non_signers : Nat) :
    Nat → Nat → Nat → List AccountMeta
  | _, _, 0 => []
  | i, off, remaining + 1 =>
    if off + 32 > tx_data.length then []
    else
      let key := (tx_data.drop off).take 32
      let rest := vaultKeysLoop tx_data vault_pda num_signers
        num_writable_signers num_writable_non_signers (i + 1) (off + 32) remaining
      if key ≠ vault_pda then
        (if i < num_signers then
          ⟨key, false, decide (i < num_writable_signers)⟩
        else
          ⟨key, false, decide (i < num_signers + num_writable_non_signers)⟩) :: rest
      else rest

/-- `parse_vault_transaction_accounts` (transport.rs:494-585): fixed header of
83 bytes, then `ephemeral_signer_bumps` (u32 length prefix), the three signer
counts, and the length-prefixed account keys; every truncation before the keys
returns just the vault meta. -/
def parse_vault_transaction_accounts (tx_data : List Nat)
    (vault_pda : List Nat) : Except SquadsError (List AccountMeta) :=
  if tx_data.length < 83 then
    .error (.InvalidAccountData "Vault transaction too small")
  else if 83 + 4 > tx_data.length then
    .ok [⟨vault_pda, false, true⟩]
  else if 83 + 4 + readLe tx_data 83 4 + 3 > tx_data.length then
    .ok [⟨vault_pda, false, true⟩]
  else if 83 + 4 + readLe tx_data 83 4 + 3 + 4 > tx_data.length then
    .ok [⟨vault_pda, false, true⟩]
  else
    .ok (⟨vault_pda, false, true⟩ ::
      vaultKeysLoop tx_data vault_pda
        (tx_data.getD (83 + 4 + readLe tx_data 83 4) 0)
        (tx_data.getD (83 + 4 + readLe tx_data 83 4 + 1) 0)
        (tx_data.getD (83 + 4 + readLe tx_data 83 4 + 2) 0)
        0 (83 + 4 + readLe tx_data 83 4 + 3 + 4)
        (readLe tx_data (83 + 4 + readLe tx_data 83 4 + 3) 4))

/-- The RPC client and wallet as `SquadsTransport::submit` consumes them:
account data by pubkey, blockhash fetches, and the three sends (create+
proposal, approve, execute) with their confirmation outcomes. -/
structure SquadsEnv where
  accountData : List Nat → Except String (List Nat)
  blockhash : Except String Unit
  sendCreate : Except String Nat
  sendApprove : Except String Nat
  sendExecute : Except String Nat

/-- `SquadsTransport::create_proposal` (transport.rs:128-208): fetch the
multisig account, read `transaction_index` at offset 78 (u64), derive the
transaction and proposal PDAs for `transaction_index + 1`, send the
create+proposal transaction, and return `(proposal_pda, next_index)`. -/
def create_proposal (multisig : List Nat) (getTxPda getPropPda : Nat → List Nat)
    (env : SquadsEnv) : Except SquadsError (List Nat × Nat) :=
  match env.accountData multisig with
  | .error e => .error (.Rpc ("Failed to fetch multisig: " ++ e))
  | .ok multisig_data =>
    if multisig_data.length < 78 + 8 then
      .error (.InvalidAccountData "Multisig account too small")
    else
      -- both PDAs are derived at next_index; the transaction PDA feeds the
      -- elided vault_transaction_create instruction
      let _transaction_pda := getTxPda ((readLe multisig_data 78 8 + 1) % 2 ^ 64)
      match env.blockhash with
      | .error e => .error (.Rpc ("Failed to get blockhash: " ++ e))
      | .ok _ =>
        match env.sendCreate with
        | .error e => .error (.ProposalCreation e)
        | .ok _ =>
          .ok (getPropPda ((readLe multisig_data 78 8 + 1) % 2 ^ 64),
            (readLe multisig_data 78 8 + 1) % 2 ^ 64)

/-- `SquadsTransport::approve_proposal` (transport.rs:211-241). -/
def approve_proposal (env : SquadsEnv) : Except SquadsError Unit :=
  match env.blockhash with
  | .error e => .error (.Rpc ("Failed to get blockhash: " ++ e))
  | .ok _ =>
    match env.sendApprove with
    | .error e => .error (.Approval e)
    | .ok _ => .ok ()

/-- `SquadsTransport::get_proposal_state` (transport.rs:287-296). -/
def get_proposal_state (getPropPda : Nat → List Nat) (env : SquadsEnv)
    (transaction_index : Nat) : Except SquadsError ProposalState :=
  match env.accountData (getPropPda transaction_index) with
  | .error e => .error (.Rpc ("Failed to fetch proposal: " ++ e))
  | .ok proposal_data => parse_proposal_state proposal_data

/-- `SquadsTransport::get_threshold` (transport.rs:299-319): u16 at offset
72 of the multisig account. -/
def get_threshold (multisig : List Nat) (env : SquadsEnv) :
    Except SquadsError Nat :=
  match env.accountData multisig with
  | .error e => .error (.Rpc ("Failed to fetch multisig: " ++ e))
  | .ok multisig_data =>
    if multisig_data.length < 72 + 2 then
      .error (.InvalidAccountData "Multisig too small")
    else
      .ok (readLe multisig_data 72 2)

/-- `SquadsTransport::execute_proposal` (transport.rs:244-284): fetch the
vault-transaction account at the transaction PDA, rebuild the account list,
send the execute transaction, return its signature. -/
def execute_proposal (vault_pda : List Nat) (getTxPda : Nat → List Nat)
    (env : SquadsEnv) (transaction_index : Nat) : Except SquadsError Nat :=
  match env.accountData (getTxPda transaction_index) with
  | .error e => .error (.Rpc ("Failed to fetch transaction: " ++ e))
  | .ok tx_data =>
    match parse_vault_transaction_accounts tx_data vault_pda with
    | .error e => .error e
    | .ok _remaining_accounts =>
      match env.blockhash with
      | .error e => .error (.Rpc ("Failed to get blockhash: " ++ e))
      | .ok _ =>
        match env.sendExecute with
        | .error e => .error (.Execution e)
        | .ok signature => .ok signature

/-- `SquadsTransport::submit` (transport.rs:328-353): create, approve, read
the proposal state and threshold, then execute if at threshold and not yet
executed, returning `Executed`; otherwise `Pending`. -/
def submit (multisig vault_pda : List Nat) (getTxPda getPropPda : Nat → List Nat)
    (env : SquadsEnv) (_message : List Nat) : Except SquadsError SubmitResult :=
  match create_proposal multisig getTxPda getPropPda env with
  | .error e => .error e
  | .ok (proposal, tx_index) =>
    match approve_proposal env with
    | .error e => .error e
    | .ok _ =>
      match get_proposal_state getPropPda env tx_index with
      | .error e => .error e
      | .ok state =>
        match get_threshold multisig env with
        | .error e => .error e
        | .ok threshold =>
          if state.can_execute threshold then
            match execute_proposal vault_pda getTxPda env tx_index with
            | .error e => .error e
            | .ok sig => .ok (.Executed sig proposal)
          else
            .ok (.Pending proposal tx_index state.approval_count threshold)

theorem parse_vault_tx_accounts_isOk {d v : List Nat} (h : 83 ≤ d.length) :
    ∃ l, parse_vault_transaction_accounts d v = .ok l := by
  unfold parse_vault_transaction_accounts
  rw [if_neg (by omega)]
  split
  · exact ⟨_, rfl⟩
  · split
    · exact ⟨_, rfl⟩
    · split
      · exact ⟨_, rfl⟩
      · exact ⟨_, rfl⟩

/-- C3: under the claim's premises (multisig account parses to
`transaction_index = i` and `threshold = t`; after create and approve the
proposal account at the PDA for `i+1` parses to `approval_count = a` with
status ≠ 3), `submit` works at index `i+1` (u64 wrap) and returns `Executed`
with the execute signature and the proposal PDA when `a ≥ t`, else `Pending`
with that proposal, `transaction_index = i+1`, `approvals = a`,
`threshold = t`. -/
theorem c3_submit_threshold_behavior
    (multisig vault_pda : List Nat) (getTxPda getPropPda : Nat → List Nat)
    (env : SquadsEnv) (message mdata pdata txdata : List Nat)
    (i t a sigC sigA sigE : Nat)
    (hm : env.accountData multisig = .ok mdata)
    (hmlen : 86 ≤ mdata.length)
    (hi : readLe mdata 78 8 = i)
    (ht : readLe mdata 72 2 = t)
    (hbh : env.blockhash = .ok ())
    (hsc : env.sendCreate = .ok sigC)
    (hsa : env.sendApprove = .ok sigA)
    (hp : env.accountData (getPropPda ((i + 1) % 2 ^ 64)) = .ok pdata)
    (hplen : 54 ≤ pdata.length)
    (hstatus : pdata.getD 48 0 ≠ 3)
    (ha : readLe pdata 50 4 = a)
    (htx : env.accountData (getTxPda ((i + 1) % 2 ^ 64)) = .ok txdata)
    (htxlen : 83 ≤ txdata.length)
    (hse : env.sendExecute = .ok sigE) :
    submit multisig vault_pda getTxPda getPropPda env message
      = .ok (if t ≤ a then
              .Executed sigE (getPropPda ((i + 1) % 2 ^ 64))
            else
              .Pending (getPropPda ((i + 1) % 2 ^ 64)) ((i + 1) % 2 ^ 64) a t) := by
  have hb3 : (pdata.getD 48 0 == 3) = false := by
    simp only [beq_eq_false_iff_ne, ne_eq]
    exact hstatus
  unfold submit create_proposal approve_proposal get_proposal_state
    get_threshold execute_proposal parse_proposal_state
  simp only [hm]
  rw [if_neg (by omega)]
  simp only [hi, hbh, hsc, hsa, hp]
  rw [if_neg (by omega)]
  simp only [ha, hb3]
  rw [if_neg (by omega)]
  simp only [ht]
  unfold ProposalState.can_execute
  simp only [Bool.not_false, Bool.and_true]
  by_cases hat : t ≤ a
  · rw [if_pos (by simp [ge_iff_le, hat]), if_pos hat]
    obtain ⟨l, hl⟩ := parse_vault_tx_accounts_isOk (v := vault_pda) htxlen
    simp only [htx, hl, hbh, hse]
  · rw [if_neg (by simp [ge_iff_le, hat]), if_neg hat]

/-- Concrete multisig account data for the C3 witness:
`threshold = 2` at offset 72, `transaction_index = 7` at offset 78. -/
def squadsDemoM : List Nat :=
  List.replicate 72 0 ++ [2, 0] ++ List.replicate 4 0 ++ [7, 0, 0, 0, 0, 0, 0, 0]

/-- Concrete proposal account data for the C3 witness: status 0 at offset 48,
`approval_count = 1` at offset 50. -/
def squadsDemoP : List Nat :=
  List.replicate 48 0 ++ [0, 0, 1, 0, 0, 0]

/-- Concrete environment for the C3 witness: the multisig lives at `[0]`, the
proposal PDA for index 8 at `[2, 8]`, the transaction PDA for index 8 at
`[1, 8]`. -/
def squadsDemoEnv : SquadsEnv where
  accountData pk :=
    if pk = [0] then .ok squadsDemoM
    else if pk = [2, 8] then .ok squadsDemoP
    else if pk = [1, 8] then .ok (List.replicate 83 0)
    else .error "unknown account"
  blockhash := .ok ()
  sendCreate := .ok 11
  sendApprove := .ok 12
  sendExecute := .ok 13

/-- Witness for `c3_submit_threshold_behavior`: with `threshold = 2`,
`transaction_index = 7` and one approval, `submit` lands in the `Pending`
branch at index 8. -/
theorem c3_submit_threshold_behavior_witness :
    submit [0] [3] (fun n => [1, n]) (fun n => [2, n]) squadsDemoEnv [9]
      = .ok (if 2 ≤ 1 then
              .Executed 13 ((fun n => [2, n]) ((7 + 1) % 2 ^ 64))
            else
              .Pending ((fun n => [2, n]) ((7 + 1) % 2 ^ 64)) ((7 + 1) % 2 ^ 64)
                1 2) :=
  c3_submit_threshold_behavior [0] [3] (fun n => [1, n]) (fun n => [2, n])
    squadsDemoEnv [9] squadsDemoM squadsDemoP (List.replicate 83 0)
    7 2 1 11 12 13
    (by decide) (by decide) (by decide) (by decide) rfl rfl rfl
    (by decide) (by decide) (by decide) (by decide) (by decide) (by decide) rfl

/-! ## §7 Database store: src/crates/solana-keyring/src/db/mod.rs

SQLite is modelled as in-memory tables plus a per-statement failure oracle
`faults : Nat → Bool` standing for statement-level rusqlite errors (I/O,
busy...): statement `k` of a call fails iff `faults k`.  Each `conn.execute`
commits individually — the source opens no transaction around
`store_keypair`.  Record pubkeys are raw bytes (base58, the stored encoding,
is an injective external codec). -/

/-- A `keypairs` row (migrations.rs:22-32): `pubkey` is UNIQUE. -/
structure KeypairRecord where
  id : Nat
  pubkey : List Nat
  label : String
  envelope : EncryptedData
deriving Repr, DecidableEq

/-- The tables touched by `store_keypair`: `keypairs`, `tags` (UNIQUE name),
and the `keypair_tags` junction, with the AUTOINCREMENT counters. -/
structure DbTables where
  keypairs : List KeypairRecord
  tags : List (Nat × String)
  keypair_tags : List (Nat × Nat)
  next_keypair_id : Nat
  next_tag_id : Nat
deriving Repr, DecidableEq

/-- `Database::get_or_create_tag` (db/mod.rs:262-276): `INSERT OR IGNORE`
into `tags` (statement `k`), then `SELECT id` (statement `k+1`). -/
def get_or_create_tag (faults : Nat → Bool) (db : DbTables) (k : Nat)
    (name : String) : DbTables × Nat × Except Error Nat :=
  if faults k then (db, k + 1, .error (.Database "tags insert failed"))
  else
    let db1 :=
      if (db.tags.find? (fun t => t.2 == name)).isSome then db
      else
        { db with
          tags := db.tags ++ [(db.next_tag_id, name)]
          next_tag_id := db.next_tag_id + 1 }
    if faults (k + 1) then (db1, k + 2, .error (.Database "tags select failed"))
    else
      match db1.tags.find? (fun t => t.2 == name) with
      | some t => (db1, k + 2, .ok t.1)
      | none => (db1, k + 2, .error (.Database "query returned no rows"))

/-- `Database::add_tag_to_keypair` (db/mod.rs:279-297): resolve the tag id,
`SELECT id FROM keypairs WHERE pubkey` (any failure mapped to
`KeypairNotFound`), then `INSERT OR IGNORE` into the junction. -/
def add_tag_to_keypair (faults : Nat → Bool) (db : DbTables) (k : Nat)
    (pubkey : List Nat) (tag : String) : DbTables × Nat × Except Error Unit :=
  match get_or_create_tag faults db k tag with
  | (db1, k1, .error e) => (db1, k1, .error e)
  | (db1, k1, .ok tag_id) =>
    if faults k1 then (db1, k1 + 1, .error (.KeypairNotFound "pubkey"))
    else
      match db1.keypairs.find? (fun r => r.pubkey == pubkey) with
      | none => (db1, k1 + 1, .error (.KeypairNotFound "pubkey"))
      | some r =>
        if faults (k1 + 1) then
          (db1, k1 + 2, .error (.Database "keypair_tags insert failed"))
        else
          (if (db1.keypair_tags.find?
                (fun p => p.1 == r.id && p.2 == tag_id)).isSome then db1
           else { db1 with keypair_tags := db1.keypair_tags ++ [(r.id, tag_id)] },
           k1 + 2, .ok ())

/-- The `for tag in tags` loop of `store_keypair` (db/mod.rs:136-138). -/
def storeTagsLoop (faults : Nat → Bool) (pubkey : List Nat) :
    DbTables → Nat → List String → DbTables × Nat × Except Error Unit
  | db, k, [] => (db, k, .ok ())
  | db, k, tag :: rest =>
    match add_tag_to_keypair faults db k pubkey tag with
    | (db1, k1, .error e) => (db1, k1, .error e)
    | (db1, k1, .ok _) => storeTagsLoop faults pubkey db1 k1 rest

/-- `Database::store_keypair` (db/mod.rs:111-141): envelope-encrypt the
secret, `INSERT INTO keypairs` (statement 0; UNIQUE pubkey conflicts fail
with nothing written), then link each tag in turn.  No transaction wraps
the statements. -/
def store_keypair (A : Aead) (kdf : List Nat → List Nat → List Nat)
    (salt nonce : List Nat) (faults : Nat → Bool) (db : DbTables)
    (keypair : SecureKeypair) (label : String) (master_passphrase : List Nat)
    (tags : List String) : DbTables × Except Error Unit :=
  if faults 0 then (db, .error (.Database "keypairs insert failed"))
  else if (db.keypairs.find? (fun r => r.pubkey == keypair.pubkey)).isSome then
    (db, .error (.Database "UNIQUE constraint failed: keypairs.pubkey"))
  else
    match storeTagsLoop faults keypair.pubkey
        { db with
          keypairs := db.keypairs ++
            [⟨db.next_keypair_id, keypair.pubkey, label,
              encrypt_secret A kdf salt nonce keypair.secret master_passphrase⟩],
          next_keypair_id := db.next_keypair_id + 1 }
        1 tags with
    | (db2, _, .error e) => (db2, .error e)
    | (db2, _, .ok _) => (db2, .ok ())

/-- The phrasing of claim C9 (starting from a store without the record):
after `store_keypair`, if the keypair record exists then all of its tag
links exist too — the call is all-or-nothing. -/
def storeKeypairAtomic : Prop :=
  ∀ (A : Aead) (kdf : List Nat → List Nat → List Nat)
    (salt nonce : List Nat) (faults : Nat → Bool) (db : DbTables)
    (keypair : SecureKeypair) (label : String) (master_passphrase : List Nat)
    (tags : List String),
    db.keypairs = [] → db.keypair_tags = [] →
    (∃ r ∈ (store_keypair A kdf salt nonce faults db keypair label
        master_passphrase tags).1.keypairs, r.pubkey = keypair.pubkey) →
    ∀ tag ∈ tags, ∃ rid tid,
      (rid, tid) ∈ (store_keypair A kdf salt nonce faults db keypair label
          master_passphrase tags).1.keypair_tags
      ∧ (tid, tag) ∈ (store_keypair A kdf salt nonce faults db keypair label
          master_passphrase tags).1.tags

/-- C9 counterexample: from an empty store, with the tag-insert statement
(statement 1) failing, `store_keypair` reports an error yet leaves the
keypair record behind with no tag link at all — the record and its links are
not all-or-nothing. -/
theorem c9_store_keypair_atomicity_counterexample :
    (store_keypair toyAead toyKdf [5] [6] (fun k => k == 1)
        ⟨[], [], [], 1, 1⟩ ⟨[9], [8]⟩ "alice" [0] ["work"]).2
      = .error (.Database "tags insert failed")
    ∧ ((store_keypair toyAead toyKdf [5] [6] (fun k => k == 1)
        ⟨[], [], [], 1, 1⟩ ⟨[9], [8]⟩ "alice" [0] ["work"]).1.keypairs.map
          KeypairRecord.pubkey) = [[8]]
    ∧ (store_keypair toyAead toyKdf [5] [6] (fun k => k == 1)
        ⟨[], [], [], 1, 1⟩ ⟨[9], [8]⟩ "alice" [0] ["work"]).1.keypair_tags = []
    ∧ ¬ storeKeypairAtomic := by
  refine ⟨by decide, by decide, by decide, fun h => ?_⟩
  obtain ⟨rid, tid, hlink, _⟩ :=
    h toyAead toyKdf [5] [6] (fun k => k == 1) ⟨[], [], [], 1, 1⟩
      ⟨[9], [8]⟩ "alice" [0] ["work"] rfl rfl
      ⟨⟨1, [8], "alice",
          encrypt_secret toyAead toyKdf [5] [6] [9] [0]⟩, by decide, rfl⟩
      "work" (by decide)
  have hempty : (store_keypair toyAead toyKdf [5] [6] (fun k => k == 1)
      ⟨[], [], [], 1, 1⟩ ⟨[9], [8]⟩ "alice" [0] ["work"]).1.keypair_tags = [] := by
    decide
  rw [hempty] at hlink
  simp at hlink

theorem get_or_create_tag_fault_free (db : DbTables) (k : Nat) (name : String) :
    ∃ db1 tid,
      get_or_create_tag (fun _ => false) db k name = (db1, k + 2, .ok tid)
      ∧ db1.keypairs = db.keypairs
      ∧ db1.keypair_tags = db.keypair_tags
      ∧ (∀ x ∈ db.tags, x ∈ db1.tags)
      ∧ (tid, name) ∈ db1.tags := by
  cases hfind : db.tags.find? (fun t => t.2 == name) with
  | some t0 =>
    refine ⟨db, t0.1, ?_, rfl, rfl, fun x hx => hx, ?_⟩
    · unfold get_or_create_tag
      simp [hfind]
    · have hmem := List.mem_of_find?_eq_some hfind
      have hpred := List.find?_some hfind
      simp only [beq_iff_eq] at hpred
      rw [show (t0.1, name) = t0 from by rw [← hpred]]
      exact hmem
  | none =>
    refine ⟨{ db with
        tags := db.tags ++ [(db.next_tag_id, name)]
        next_tag_id := db.next_tag_id + 1 }, db.next_tag_id, ?_, rfl, rfl,
      fun x hx => List.mem_append_left _ hx,
      List.mem_append_right _ (List.mem_singleton.mpr rfl)⟩
    unfold get_or_create_tag
    simp [hfind, List.find?_append]

theorem add_tag_to_keypair_fault_free (pubkey : List Nat) (rec : KeypairRecord)
    (db : DbTables) (k : Nat) (tag : String)
    (hrec : db.keypairs.find? (fun r => r.pubkey == pubkey) = some rec) :
    ∃ db2 tid,
      add_tag_to_keypair (fun _ => false) db k pubkey tag = (db2, k + 4, .ok ())
      ∧ db2.keypairs = db.keypairs
      ∧ (∀ x ∈ db.tags, x ∈ db2.tags)
      ∧ (∀ x ∈ db.keypair_tags, x ∈ db2.keypair_tags)
      ∧ (tid, tag) ∈ db2.tags
      ∧ (rec.id, tid) ∈ db2.keypair_tags := by
  obtain ⟨db1, tid, hgoc, hkp, hjt, htags, htag⟩ :=
    get_or_create_tag_fault_free db k tag
  have hrec1 : db1.keypairs.find? (fun r => r.pubkey == pubkey) = some rec := by
    rw [hkp]
    exact hrec
  cases hjf : db1.keypair_tags.find? (fun p => p.1 == rec.id && p.2 == tid) with
  | some p0 =>
    refine ⟨db1, tid, ?_, hkp, htags, fun x hx => by rw [hjt]; exact hx, htag, ?_⟩
    · unfold add_tag_to_keypair
      rw [hgoc]
      simp [hrec1, hjf]
    · have hmem := List.mem_of_find?_eq_some hjf
      have hpred := List.find?_some hjf
      simp only [Bool.and_eq_true, beq_iff_eq] at hpred
      rw [show (rec.id, tid) = p0 from by rw [← hpred.1, ← hpred.2]]
      exact hmem
  | none =>
    refine ⟨{ db1 with keypair_tags := db1.keypair_tags ++ [(rec.id, tid)] },
      tid, ?_, hkp, htags,
      fun x hx => List.mem_append_left _ (by rw [hjt]; exact hx),
      htag, List.mem_append_right _ (List.mem_singleton.mpr rfl)⟩
    unfold add_tag_to_keypair
    rw [hgoc]
    simp [hrec1, hjf]

theorem storeTagsLoop_fault_free (pubkey : List Nat) (rec : KeypairRecord) :
    ∀ (tags : List String) (db : DbTables) (k : Nat),
      db.keypairs.find? (fun r => r.pubkey == pubkey) = some rec →
      ∃ db' k',
        storeTagsLoop (fun _ => false) pubkey db k tags = (db', k', .ok ())
        ∧ db'.keypairs = db.keypairs
        ∧ (∀ x ∈ db.tags, x ∈ db'.tags)
        ∧ (∀ x ∈ db.keypair_tags, x ∈ db'.keypair_tags)
        ∧ ∀ tag ∈ tags, ∃ tid, (tid, tag) ∈ db'.tags
            ∧ (rec.id, tid) ∈ db'.keypair_tags := by
  intro tags
  induction tags with
  | nil =>
    intro db k hrec
    exact ⟨db, k, rfl, rfl, fun x hx => hx, fun x hx => hx, by simp⟩
  | cons tag rest ih =>
    intro db k hrec
    obtain ⟨db2, tid, hadd, hkp2, htags2, hlinks2, htagmem, hlinkmem⟩ :=
      add_tag_to_keypair_fault_free pubkey rec db k tag hrec
    obtain ⟨db', k', hloop, hkp', htags', hlinks', hrest⟩ :=
      ih db2 (k + 4) (by rw [hkp2]; exact hrec)
    refine ⟨db', k', ?_, by rw [hkp', hkp2], fun x hx => htags' _ (htags2 _ hx),
      fun x hx => hlinks' _ (hlinks2 _ hx), ?_⟩
    · simp only [storeTagsLoop]
      rw [hadd]
      exact hloop
    · intro t ht
      rcases List.mem_cons.mp ht with rfl | hmem
      · exact ⟨tid, htags' _ htagmem, hlinks' _ hlinkmem⟩
      · exact hrest t hmem

/-- C9 amended: without statement-level SQLite failures `store_keypair` from a
store not containing the pubkey succeeds, and afterwards the record and all of
its tag links exist; but the statements are not one transaction — a failing
tag-link statement leaves the already-committed keypair record behind without
its links (see the counterexample). -/
theorem c9_store_keypair_fault_free
    (A : Aead) (kdf : List Nat → List Nat → List Nat)
    (salt nonce : List Nat) (db : DbTables) (keypair : SecureKeypair)
    (label : String) (master_passphrase : List Nat) (tags : List String)
    (hfresh : db.keypairs.find? (fun r => r.pubkey == keypair.pubkey) = none) :
    ∃ db',
      store_keypair A kdf salt nonce (fun _ => false) db keypair label
          master_passphrase tags = (db', .ok ())
      ∧ (⟨db.next_keypair_id, keypair.pubkey, label,
          encrypt_secret A kdf salt nonce keypair.secret master_passphrase⟩
            : KeypairRecord) ∈ db'.keypairs
      ∧ ∀ tag ∈ tags, ∃ tid, (tid, tag) ∈ db'.tags
          ∧ (db.next_keypair_id, tid) ∈ db'.keypair_tags := by
  have hfind1 :
      (db.keypairs ++
        [(⟨db.next_keypair_id, keypair.pubkey, label,
            encrypt_secret A kdf salt nonce keypair.secret master_passphrase⟩
          : KeypairRecord)]).find? (fun r => r.pubkey == keypair.pubkey)
      = some ⟨db.next_keypair_id, keypair.pubkey, label,
          encrypt_secret A kdf salt nonce keypair.secret master_passphrase⟩ := by
    rw [List.find?_append, hfresh]
    simp
  obtain ⟨db', k', hloop, hkp', htags', hlinks', hall⟩ :=
    storeTagsLoop_fault_free keypair.pubkey
      ⟨db.next_keypair_id, keypair.pubkey, label,
        encrypt_secret A kdf salt nonce keypair.secret master_passphrase⟩
      tags
      { db with
        keypairs := db.keypairs ++
          [⟨db.next_keypair_id, keypair.pubkey, label,
            encrypt_secret A kdf salt nonce keypair.secret master_passphrase⟩]
        next_keypair_id := db.next_keypair_id + 1 }
      1 hfind1
  refine ⟨db', ?_, ?_, ?_⟩
  · unfold store_keypair
    rw [if_neg (by simp), if_neg (by rw [hfresh]; simp), hloop]
  · rw [hkp']
    exact List.mem_append_right _ (List.mem_singleton.mpr rfl)
  · exact hall

/-- Witness for `c9_store_keypair_fault_free`: storing into an empty store
with two tags. -/
theorem c9_store_keypair_fault_free_witness :
    ∃ db',
      store_keypair toyAead toyKdf [5] [6] (fun _ => false)
          ⟨[], [], [], 1, 1⟩ ⟨[9], [8]⟩ "alice" [0] ["work", "personal"]
        = (db', .ok ())
      ∧ (⟨1, [8], "alice", encrypt_secret toyAead toyKdf [5] [6] [9] [0]⟩
            : KeypairRecord) ∈ db'.keypairs
      ∧ ∀ tag ∈ ["work", "personal"], ∃ tid, (tid, tag) ∈ db'.tags
          ∧ (1, tid) ∈ db'.keypair_tags :=
  c9_store_keypair_fault_free toyAead toyKdf [5] [6] ⟨[], [], [], 1, 1⟩
    ⟨[9], [8]⟩ "alice" [0] ["work", "personal"] (by decide)

end SignAgent
